import Mathlib

/-!
Shallow embedding of the GMS round-logic core
(`core/round_logic/state.py`, `step.py`, `pathfinding.py`, `events.py`)
and verification of the specification claims about it.

Conventions of the embedding:
* Python `int` becomes `ℤ` (or `ℕ` for sizes and counters that are
  manifestly non-negative), Python `float` becomes `ℚ` (every float the
  round logic manipulates is produced from integer data by `+`, `-` and
  negation, so rational arithmetic agrees exactly with IEEE doubles here).
* Python `round` (banker's rounding, half to even) is `pyRound`.
* In-place mutation after `copy.deepcopy` becomes functional record update.
* Python dict/set auxiliaries of the A* search become association lists
  with overwrite-on-insert and first-match lookup, which reproduces the
  observable dict behaviour; the `heapq` priority queue is modelled by
  extracting the minimum of the pending list under the lexicographic
  tuple order used by the source (`(f_score, counter, position)`).
* The bounded `while` loops of the source become structural recursion on
  an explicit fuel equal to the source's iteration budget.
-/

namespace GMS

/-- Grid cell kinds, `BlockType` in `state.py` (`EMPTY=0, WALL=1, TOWER=2, START=3`). -/
inductive BlockType
  | EMPTY
  | WALL
  | TOWER
  | START
  deriving DecidableEq, Repr

/-- Tower entity (`state.py`): integer grid position, firing direction,
health, fire rate and fire counter. -/
structure Tower where
  position : ℤ × ℤ
  direction : ℚ × ℚ
  health : ℤ
  rate : ℤ
  tick : ℤ
  tower_id : String
  deriving DecidableEq, Repr

/-- Projectile entity (`state.py`): continuous position and per-tick displacement. -/
structure Projectile where
  position : ℚ × ℚ
  direction : ℚ × ℚ
  deriving DecidableEq, Repr

/-- Modelled from the spec: the action constants of
`core/round_logic/actions.py` (a file whose body is not available) are
four distinct action-type tags `Move`, `Attack`, `Stand`, `Resume`; an
action/directive is a dictionary holding the tag together with its
`target_position` (Move) or `target_id` (Attack) payload. -/
inductive Directive
  | move (target_position : ℤ × ℤ)
  | attack (target_id : String)
  | stand
  | resume
  deriving DecidableEq, Repr

/-- Events of `events.py`. -/
inductive Event
  | agentMoved (position : ℤ × ℤ)
  | agentDamaged (damage : ℤ) (health_remaining : ℤ)
  | towerDamaged (tower_id : String) (damage : ℤ) (health_remaining : ℤ)
  | towerDestroyed (tower_id : String)
  | projectileCreated (position : ℚ × ℚ) (direction : ℚ × ℚ)
  | projectileRemoved (position : ℚ × ℚ)
  | roundOver (agent_survived : Bool)
  deriving DecidableEq, Repr

/-- Unified round state (`RoundState` in `state.py`). -/
structure RoundState where
  grid_width : ℕ
  grid_height : ℕ
  grid_layout : List (List BlockType)
  towers : List Tower
  projectiles : List Projectile
  current_active_directive : Option Directive
  last_interrupted_directive : Option Directive
  position : ℤ × ℤ
  health : ℤ
  tick_index : ℕ
  deriving DecidableEq, Repr

/-- Cell lookup `grid_layout[y][x]`; all uses in the embedded code are
guarded by bounds checks exactly as in the source. -/
def gridAt (g : List (List BlockType)) (x y : ℤ) : BlockType :=
  (g.getD y.toNat []).getD x.toNat BlockType.EMPTY

/-- `RoundState.is_position_valid` (`state.py`): in bounds, not a wall,
and not occupied by a living tower.  The source returns `False` when
the (in-bounds) indexing into a ragged `grid_layout` raises
`IndexError`; the explicit `getElem?` matches hit that case. -/
def RoundState.is_position_valid (s : RoundState) (x y : ℤ) : Bool :=
  if x < 0 ∨ (s.grid_width : ℤ) ≤ x ∨ y < 0 ∨ (s.grid_height : ℤ) ≤ y then false
  else
    match s.grid_layout[y.toNat]? with
    | none => false
    | some row =>
      match row[x.toNat]? with
      | none => false
      | some b =>
        if b = BlockType.WALL then false
        else s.towers.all fun t => !(decide (0 < t.health) && decide (t.position = (x, y)))

/-- `RoundState.is_round_over` (`state.py`): agent dead or all towers destroyed. -/
def RoundState.is_round_over (s : RoundState) : Bool :=
  decide (s.health ≤ 0) || s.towers.all fun t => decide (t.health ≤ 0)

/-- `manhattan_distance` (`step.py`). -/
def manhattan_distance (a b : ℤ × ℤ) : ℕ :=
  (a.1 - b.1).natAbs + (a.2 - b.2).natAbs

/-- `is_adjacent_to` (`step.py`). -/
def is_adjacent_to (a b : ℤ × ℤ) : Bool :=
  decide (manhattan_distance a b = 1)

/-- `find_nearby_tower` (`step.py`): first living tower adjacent to `position`. -/
def find_nearby_tower (s : RoundState) (position : ℤ × ℤ) : Option Tower :=
  s.towers.find? fun t => decide (0 < t.health) && is_adjacent_to position t.position

/-- Python `round` on our exact rationals: round half to even. -/
def pyRound (q : ℚ) : ℤ :=
  let f := ⌊q⌋
  let r := q - (f : ℚ)
  if r < 1 / 2 then f
  else if (1 / 2 : ℚ) < r then f + 1
  else if f % 2 = 0 then f else f + 1

/-- `AGENT_DAMAGE` constant of `step.py`. -/
def AGENT_DAMAGE : ℤ := 20

/-- `PROJECTILE_DAMAGE` constant of `step.py`. -/
def PROJECTILE_DAMAGE : ℤ := 10

/-- The snapshot loop at the top of `step` (`step.py` lines 49-53):
`old_distance_to_nearest_tower` starts at `0` and the loop breaks at the
first tower with positive health. -/
def firstLivingTowerDistance (position : ℤ × ℤ) : List Tower → ℕ
  | [] => 0
  | t :: ts =>
    if 0 < t.health then manhattan_distance position t.position
    else firstLivingTowerDistance position ts

/-- The pre-tick distance snapshot taken by `step`. -/
def oldDistanceToNearestTower (s : RoundState) : ℕ :=
  firstLivingTowerDistance s.position s.towers

/-- One iteration of the tower loop in `process_towers`, acting on the
accumulated (towers, new projectiles, events). -/
def processOneTower (acc : List Tower × List Projectile × List Event) (tower : Tower) :
    List Tower × List Projectile × List Event :=
  let (ts, ps, evs) := acc
  if tower.health ≤ 0 then (ts ++ [tower], ps, evs)
  else
    let t1 : Tower := { tower with tick := tower.tick + 1 }
    if t1.rate ≤ t1.tick then
      (ts ++ [{ t1 with tick := 0 }],
       ps ++ [⟨((t1.position.1 : ℚ), (t1.position.2 : ℚ)), t1.direction⟩],
       evs ++ [Event.projectileCreated ((t1.position.1 : ℚ), (t1.position.2 : ℚ)) t1.direction])
    else (ts ++ [t1], ps, evs)

/-- `process_towers` (`step.py`): every living tower's counter is advanced;
on reaching its rate a projectile is appended, a `ProjectileCreated`
event is emitted and the counter resets to `0`. -/
def process_towers (s : RoundState) (events : List Event) : RoundState × List Event :=
  let res := s.towers.foldl processOneTower ([], [], events)
  ({ s with towers := res.1, projectiles := s.projectiles ++ res.2.1 }, res.2.2)

/-- The in-bounds-and-not-a-wall test of `process_projectiles`. -/
def projectileInBounds (s : RoundState) (p : ℤ × ℤ) : Bool :=
  decide (0 ≤ p.1) && decide (p.1 < (s.grid_width : ℤ)) &&
  decide (0 ≤ p.2) && decide (p.2 < (s.grid_height : ℤ)) &&
  decide (gridAt s.grid_layout p.1 p.2 ≠ BlockType.WALL)

/-- The post-move rounded cell of a projectile, as computed by
`process_projectiles`. -/
def roundedNewPosition (proj : Projectile) : ℤ × ℤ :=
  (pyRound (proj.position.1 + proj.direction.1), pyRound (proj.position.2 + proj.direction.2))

/-- One iteration of the projectile loop in `process_projectiles`, acting
on the accumulated (agent health, events, surviving projectiles); the
collision tests read the (fixed) agent position, grid and towers of `s`. -/
def processOneProjectile (s : RoundState) (old_position : Option (ℤ × ℤ))
    (acc : ℤ × List Event × List Projectile) (proj : Projectile) :
    ℤ × List Event × List Projectile :=
  let (health, evs, surviving) := acc
  let new_pos : ℚ × ℚ := (proj.position.1 + proj.direction.1, proj.position.2 + proj.direction.2)
  let rounded_pos : ℤ × ℤ := roundedNewPosition proj
  let new_projectile : Projectile := ⟨new_pos, proj.direction⟩
  if rounded_pos = s.position then
    let h1 := if health - PROJECTILE_DAMAGE < 0 then 0 else health - PROJECTILE_DAMAGE
    (h1, evs ++ [Event.agentDamaged PROJECTILE_DAMAGE h1, Event.projectileRemoved new_pos],
     surviving)
  else if old_position.elim false (fun op => decide (rounded_pos = op)) then
    let h1 := if health - PROJECTILE_DAMAGE < 0 then 0 else health - PROJECTILE_DAMAGE
    (h1, evs ++ [Event.agentDamaged PROJECTILE_DAMAGE h1, Event.projectileRemoved new_pos],
     surviving)
  else if ¬ projectileInBounds s rounded_pos then
    (health, evs ++ [Event.projectileRemoved new_pos], surviving)
  else if s.towers.any (fun t => decide (0 < t.health) && decide (t.position = rounded_pos)) then
    (health, evs ++ [Event.projectileRemoved new_pos], surviving)
  else (health, evs, surviving ++ [new_projectile])

/-- `process_projectiles` (`step.py`): move every projectile, then test in
priority order direct hit / crossing-paths hit / out of bounds or wall /
living tower; survivors keep moving. -/
def process_projectiles (s : RoundState) (events : List Event)
    (old_position : Option (ℤ × ℤ)) : RoundState × List Event :=
  let res := s.projectiles.foldl (processOneProjectile s old_position) (s.health, events, [])
  ({ s with health := res.1, projectiles := res.2.2 }, res.2.1)

/-- The repeated
`new_state.current_active_directive = None; new_state.last_interrupted_directive = None`
statement of `step`. -/
def clearDirectives (s : RoundState) : RoundState :=
  { s with current_active_directive := none, last_interrupted_directive := none }

/-- The reward loop over the event list in `step` (`reward` starts at the
step penalty `-0.2` and the loop adds the per-event bonuses). -/
def eventReward (events : List Event) : ℚ :=
  events.foldl
    (fun r e =>
      match e with
      | Event.towerDamaged _ _ _ => r + 5
      | Event.towerDestroyed _ => r + 30
      | Event.agentDamaged _ _ => r - 5
      | _ => r)
    (-0.2)

/-- The tower-distance shaping fold of `step` (lines 143-148), continuing
from the event reward and the pre-tick distance snapshot: `+1` whenever a
living tower's current distance is below the running old distance, which
is then overwritten by the current distance. -/
def shapedReward (s : RoundState) (events : List Event) (old_distance : ℕ) : ℚ :=
  (s.towers.foldl
    (fun (acc : ℚ × ℕ) t =>
      if 0 < t.health then
        let d := manhattan_distance s.position t.position
        ((if d < acc.2 then acc.1 + 1 else acc.1), d)
      else acc)
    (eventReward events, old_distance)).1

/-- Result of one `step` call.  `early` is bookkeeping of the embedding:
it is `true` exactly on the code paths where the Python function executes
one of its early `return new_state, events, reward` statements inside the
directive resolution, skipping towers, projectiles, reward shaping and
the round-over check. -/
structure StepResult where
  state : RoundState
  events : List Event
  reward : ℚ
  early : Bool
  deriving DecidableEq, Repr

/-- The reached-target check of `step` (clear the directives and emit a
second `AgentMoved` when a Move directive's target is reached). -/
def reachedTargetCheck (s2 : RoundState) (evs2 : List Event) : RoundState × List Event :=
  match s2.current_active_directive with
  | some (Directive.move target) =>
    if s2.position = target then
      (clearDirectives s2, evs2 ++ [Event.agentMoved s2.position])
    else (s2, evs2)
  | _ => (s2, evs2)

/-- The middle phases of `step` after directive resolution: the
reached-target check, `process_towers` and `process_projectiles` (the
old position is forwarded only when the agent moved this tick). -/
def stepPhases (s2 : RoundState) (evs2 : List Event) (old_position : ℤ × ℤ) :
    RoundState × List Event :=
  let s3evs3 := reachedTargetCheck s2 evs2
  let s4evs4 := process_towers s3evs3.1 s3evs3.2
  process_projectiles s4evs4.1 s4evs4.2
    (if old_position = s4evs4.1.position then none else some old_position)

/-- The tail of `step` after directive resolution: the middle phases,
the reward computation and the round-over check. -/
def stepRest (s2 : RoundState) (evs2 : List Event) (old_position : ℤ × ℤ)
    (old_distance : ℕ) : StepResult :=
  let s5evs5 := stepPhases s2 evs2 old_position
  let s5 := s5evs5.1
  let evs5 := s5evs5.2
  let r2 := shapedReward s5 evs5 old_distance
  if s5.is_round_over then
    ⟨s5, evs5 ++ [Event.roundOver (decide (0 < s5.health))],
     (if 0 < s5.health then r2 + 200 else r2 - 100), false⟩
  else ⟨s5, evs5, r2, false⟩

/-- `heuristic` (`pathfinding.py`): Manhattan distance. -/
def heuristic (a b : ℤ × ℤ) : ℕ :=
  (a.1 - b.1).natAbs + (a.2 - b.2).natAbs

/-- An entry of the A* priority queue: `(f_score, counter, position)`. -/
abbrev AstarEntry : Type := ℕ × ℕ × (ℤ × ℤ)

/-- The strict lexicographic order `heapq` uses on `(f_score, counter, position)`
tuples (position compared as a Python tuple, first component first). -/
def entryLt (a b : AstarEntry) : Bool :=
  decide (a.1 < b.1) ||
  (decide (a.1 = b.1) &&
    (decide (a.2.1 < b.2.1) ||
      (decide (a.2.1 = b.2.1) &&
        (decide (a.2.2.1 < b.2.2.1) ||
          (decide (a.2.2.1 = b.2.2.1) && decide (a.2.2.2 < b.2.2.2))))))

/-- The minimum entry of the pending list (what `heapq.heappop` returns);
`none` on the empty list. -/
def findMinEntry : List AstarEntry → Option AstarEntry
  | [] => none
  | e :: es => some (es.foldl (fun best x => if entryLt x best then x else best) e)

/-- Association-list lookup, first match (Python dict lookup). -/
def alGet {α : Type} (l : List ((ℤ × ℤ) × α)) (k : ℤ × ℤ) : Option α :=
  (l.find? fun p => decide (p.1 = k)).map Prod.snd

/-- Association-list insert with overwrite (Python dict assignment). -/
def alSet {α : Type} (l : List ((ℤ × ℤ) × α)) (k : ℤ × ℤ) (v : α) : List ((ℤ × ℤ) × α) :=
  if l.any (fun p => decide (p.1 = k)) then
    l.map fun p => if p.1 = k then (k, v) else p
  else l ++ [(k, v)]

/-- The mutable locals of the A* main loop of `find_path`. -/
structure SearchState where
  open_set : List AstarEntry
  came_from : List ((ℤ × ℤ) × (ℤ × ℤ))
  g_score : List ((ℤ × ℤ) × ℕ)
  f_score : List ((ℤ × ℤ) × ℕ)
  open_set_hash : List (ℤ × ℤ)
  counter : ℕ

/-- The neighbor offsets `[(0, 1), (1, 0), (0, -1), (-1, 0)]` used by the
pathfinder and by the alternative-goal search. -/
def neighborOffsets : List (ℤ × ℤ) := [(0, 1), (1, 0), (0, -1), (-1, 0)]

/-- Path reconstruction of `find_path`: follow `came_from` links back from
the goal and reverse.  The source's `while current in came_from` loop
always terminates because `came_from` never maps the start cell; the fuel
`came_from.length + 1` is enough to replay every link of the acyclic map. -/
def buildPath (came_from : List ((ℤ × ℤ) × (ℤ × ℤ))) :
    ℕ → (ℤ × ℤ) → List (ℤ × ℤ) → List (ℤ × ℤ)
  | 0, _, acc => acc.reverse
  | fuel + 1, current, acc =>
    match alGet came_from current with
    | none => acc.reverse
    | some prev => buildPath came_from fuel prev (acc ++ [prev])

/-- The neighbor-expansion `for` loop of one A* iteration. -/
def expandNeighbors (s : RoundState) (goal current : ℤ × ℤ) (st : SearchState) : SearchState :=
  neighborOffsets.foldl
    (fun st d =>
      let neighbor : ℤ × ℤ := (current.1 + d.1, current.2 + d.2)
      if neighbor.1 < 0 ∨ (s.grid_width : ℤ) ≤ neighbor.1 ∨
         neighbor.2 < 0 ∨ (s.grid_height : ℤ) ≤ neighbor.2 then st
      else if ¬ s.is_position_valid neighbor.1 neighbor.2 then st
      else
        let tentative_g := (alGet st.g_score current).getD 0 + 1
        let better :=
          match alGet st.g_score neighbor with
          | none => true
          | some gn => decide (tentative_g < gn)
        if better then
          let f_n := tentative_g + heuristic neighbor goal
          let st1 : SearchState :=
            { st with
              came_from := alSet st.came_from neighbor current,
              g_score := alSet st.g_score neighbor tentative_g,
              f_score := alSet st.f_score neighbor f_n }
          if neighbor ∈ st1.open_set_hash then st1
          else
            { st1 with
              counter := st1.counter + 1,
              open_set := st1.open_set ++ [(f_n, st1.counter + 1, neighbor)],
              open_set_hash := st1.open_set_hash ++ [neighbor] }
        else st)
    st

/-- The `while open_set and iterations < max_iterations` loop of
`find_path`, with the remaining iteration budget as fuel.  Both loop
exits (budget exhausted, open set empty) return the empty path. -/
def astarLoop (s : RoundState) (goal : ℤ × ℤ) : ℕ → SearchState → List (ℤ × ℤ)
  | 0, _ => []
  | fuel + 1, st =>
    match findMinEntry st.open_set with
    | none => []
    | some e =>
      let current := e.2.2
      let st1 : SearchState :=
        { st with open_set := st.open_set.erase e, open_set_hash := st.open_set_hash.erase current }
      if current = goal then buildPath st1.came_from (st1.came_from.length + 1) current [current]
      else astarLoop s goal fuel (expandNeighbors s goal current st1)

/-- The A* search proper, entered by `find_path` after its validation
phase, with the source's iteration budget `grid_width * grid_height * 4`. -/
def astarSearch (s : RoundState) (start goal : ℤ × ℤ) : List (ℤ × ℤ) :=
  let h0 := heuristic start goal
  astarLoop s goal (s.grid_width * s.grid_height * 4)
    { open_set := [(h0, 0, start)],
      came_from := [],
      g_score := [(start, 0)],
      f_score := [(start, h0)],
      open_set_hash := [start],
      counter := 0 }

/-- The alternative goals considered by `find_path` when `end` is invalid:
the in-bounds valid cells among the four orthogonal neighbors of `end`,
in offset order. -/
def altEnds (s : RoundState) (endPos : ℤ × ℤ) : List (ℤ × ℤ) :=
  neighborOffsets.filterMap fun d =>
    let alt : ℤ × ℤ := (endPos.1 + d.1, endPos.2 + d.2)
    if decide (0 ≤ alt.1) && decide (alt.1 < (s.grid_width : ℤ)) &&
       decide (0 ≤ alt.2) && decide (alt.2 < (s.grid_height : ℤ)) &&
       s.is_position_valid alt.1 alt.2 then some alt
    else none

/-- Python `min(l, key)` on a nonempty list: the first element attaining
the minimal key. -/
def minByKey (f : ℤ × ℤ → ℕ) (a : ℤ × ℤ) (l : List (ℤ × ℤ)) : ℤ × ℤ :=
  l.foldl (fun best x => if f x < f best then x else best) a

/-- `find_path` (`pathfinding.py`): validation phase (early empty results,
alternative-goal substitution for an invalid `end`), then A*. -/
def find_path (s : RoundState) (start endPos : ℤ × ℤ) : List (ℤ × ℤ) :=
  if start = endPos then []
  else if ¬ (0 ≤ start.1 ∧ start.1 < (s.grid_width : ℤ) ∧
             0 ≤ start.2 ∧ start.2 < (s.grid_height : ℤ) ∧
             0 ≤ endPos.1 ∧ endPos.1 < (s.grid_width : ℤ) ∧
             0 ≤ endPos.2 ∧ endPos.2 < (s.grid_height : ℤ)) then []
  else if ¬ s.is_position_valid start.1 start.2 then []
  else
    let endChoice : Option (ℤ × ℤ) :=
      if s.is_position_valid endPos.1 endPos.2 then some endPos
      else
        match altEnds s endPos with
        | [] => none
        | a :: rest => some (minByKey (fun p => manhattan_distance p start) a rest)
    match endChoice with
    | none => []
    | some goal => if start = goal then [start] else astarSearch s start goal

/-- The tower replaced in place by the Attack branch of `step`: the
object returned by `find_nearby_tower` is the first living adjacent
tower of the list, so the in-place mutation updates exactly that entry. -/
def replaceNearbyTower (position : ℤ × ℤ) (newTower : Tower) : List Tower → List Tower
  | [] => []
  | t :: ts =>
    if decide (0 < t.health) && is_adjacent_to position t.position then newTower :: ts
    else t :: replaceNearbyTower position newTower ts

/-- `step` (`step.py`): one tick of the round simulation. -/
def step (state : RoundState) (action : Directive) : StepResult :=
  let s0 : RoundState := { state with tick_index := state.tick_index + 1 }
  let old_distance := oldDistanceToNearestTower s0
  let old_position := s0.position
  let s1 : RoundState :=
    if action ≠ Directive.resume then
      { s0 with
        last_interrupted_directive := state.current_active_directive,
        current_active_directive := some action }
    else s0
  match s1.current_active_directive with
  | none => ⟨s1, [], -0.2, true⟩
  | some (Directive.move target) =>
    if ¬ s1.is_position_valid target.1 target.2 then
      ⟨clearDirectives s1, [], -0.2, true⟩
    else if s1.position = target then
      ⟨clearDirectives s1, [], -0.2, true⟩
    else
      let path := find_path s1 s1.position target
      if 1 < path.length then
        let p1 := path.getD 1 s1.position
        stepRest { s1 with position := p1 } [Event.agentMoved p1] old_position old_distance
      else
        stepRest (clearDirectives s1) [] old_position old_distance
  | some (Directive.attack _) =>
    match find_nearby_tower s1 s1.position with
    | some tower =>
      let t1evs1 : Tower × List Event :=
        if is_adjacent_to s1.position tower.position then
          ({ tower with health := tower.health - AGENT_DAMAGE },
           [Event.towerDamaged tower.tower_id AGENT_DAMAGE (tower.health - AGENT_DAMAGE)])
        else (tower, [])
      let t1 := t1evs1.1
      if t1.health ≤ 0 then
        stepRest
          { clearDirectives s1 with
            towers := replaceNearbyTower s1.position { t1 with health := 0 } s1.towers }
          (t1evs1.2 ++ [Event.towerDestroyed t1.tower_id]) old_position old_distance
      else
        stepRest { s1 with towers := replaceNearbyTower s1.position t1 s1.towers }
          t1evs1.2 old_position old_distance
    | none => stepRest (clearDirectives s1) [] old_position old_distance
  | some Directive.stand =>
    stepRest
      { s1 with
        current_active_directive := s1.last_interrupted_directive,
        last_interrupted_directive := none }
      [] old_position old_distance
  | some Directive.resume =>
    stepRest s1 [] old_position old_distance

/-- `_rot_pt` (`state.py`): rotate a point `k` quarter-turns clockwise
inside a `w × h` grid (Python `k %= 4` is `k % 4`, non-negative). -/
def rot_pt (x y : ℤ) (w h : ℕ) (k : ℤ) : ℤ × ℤ :=
  let k1 := k % 4
  if k1 = 0 then (x, y)
  else if k1 = 1 then ((h : ℤ) - 1 - y, x)
  else if k1 = 2 then ((w : ℤ) - 1 - x, (h : ℤ) - 1 - y)
  else (y, (w : ℤ) - 1 - x)

/-- `_rot_vec` (`state.py`): rotate a direction vector `k` quarter-turns
clockwise in screen coordinates. -/
def rot_vec (dx dy : ℚ) (k : ℤ) : ℚ × ℚ :=
  let k1 := k % 4
  if k1 = 0 then (dx, dy)
  else if k1 = 1 then (-dy, dx)
  else if k1 = 2 then (-dx, -dy)
  else (dy, -dx)

/-- `_flip_pt` (`state.py`). -/
def flip_pt (x y : ℤ) (w h : ℕ) (flip_h flip_v : Bool) : ℤ × ℤ :=
  (if flip_h then (w : ℤ) - 1 - x else x, if flip_v then (h : ℤ) - 1 - y else y)

/-- `_flip_vec` (`state.py`). -/
def flip_vec (dx dy : ℚ) (flip_h flip_v : Bool) : ℚ × ℚ :=
  (if flip_h then -dx else dx, if flip_v then -dy else dy)

/-- The rotate-then-flip coordinate map `transform` applies to every
point of a `w × h` grid (the flips use the post-rotation dimensions). -/
def transformPoint (w h : ℕ) (k : ℤ) (flip_h flip_v : Bool) (p : ℤ × ℤ) : ℤ × ℤ :=
  let k1 := k % 4
  let dims := if k1 = 0 ∨ k1 = 2 then (w, h) else (h, w)
  let p1 := rot_pt p.1 p.2 w h k
  flip_pt p1.1 p1.2 dims.1 dims.2 flip_h flip_v

/-- The rotate-then-flip map `transform` applies to every direction vector. -/
def transformVec (k : ℤ) (flip_h flip_v : Bool) (d : ℚ × ℚ) : ℚ × ℚ :=
  let d1 := rot_vec d.1 d.2 k
  flip_vec d1.1 d1.2 flip_h flip_v

/-- `new_grid[yy][xx] = ...` of the transform fill loop. -/
def setCell (g : List (List BlockType)) (x y : ℕ) (b : BlockType) : List (List BlockType) :=
  g.set y ((g.getD y []).set x b)

/-- `self.grid_layout[y][x]` of the transform fill loop. -/
def getCell (g : List (List BlockType)) (x y : ℕ) : BlockType :=
  (g.getD y []).getD x BlockType.EMPTY

/-- The nested grid-fill loop of `RoundState.transform`: start from an
all-`EMPTY` `dstW × dstH` grid and copy every source cell to its
transformed coordinates. -/
def fillGrid (src : List (List BlockType)) (srcW srcH dstW dstH : ℕ)
    (f : ℕ → ℕ → ℤ × ℤ) : List (List BlockType) :=
  (List.range srcH).foldl
    (fun g y =>
      (List.range srcW).foldl
        (fun g x =>
          let p := f x y
          setCell g p.1.toNat p.2.toNat (getCell src x y))
        g)
    (List.replicate dstH (List.replicate dstW BlockType.EMPTY))

/-- `RoundState.transform` (`state.py`): deep-copied state rotated by
`rotate_quarters` quarter-turns clockwise and then optionally flipped;
projectile positions are rounded to integers before being remapped. -/
def RoundState.transform (s : RoundState) (rotate_quarters : ℤ)
    (flip_h flip_v : Bool) : RoundState :=
  let k := rotate_quarters % 4
  let src_w := s.grid_width
  let src_h := s.grid_height
  let dims := if k = 0 ∨ k = 2 then (src_w, src_h) else (src_h, src_w)
  let newGrid := fillGrid s.grid_layout src_w src_h dims.1 dims.2
    (fun x y => transformPoint src_w src_h k flip_h flip_v ((x : ℤ), (y : ℤ)))
  let newTowers := s.towers.map fun tw =>
    { tw with
      position := transformPoint src_w src_h k flip_h flip_v tw.position,
      direction := transformVec k flip_h flip_v tw.direction }
  let newProjs := s.projectiles.map fun pr =>
    let p2 := transformPoint src_w src_h k flip_h flip_v
      (pyRound pr.position.1, pyRound pr.position.2)
    { pr with
      position := ((p2.1 : ℚ), (p2.2 : ℚ)),
      direction := transformVec k flip_h flip_v pr.direction }
  { s with
    grid_width := dims.1,
    grid_height := dims.2,
    grid_layout := newGrid,
    position := transformPoint src_w src_h k flip_h flip_v s.position,
    towers := newTowers,
    projectiles := newProjs }

/-! ### Characterization functions and helper notions used by the theorems -/

/-- What one `process_towers` iteration does to a single tower. -/
def tickTower (t : Tower) : Tower :=
  if t.health ≤ 0 then t
  else if t.rate ≤ t.tick + 1 then { t with tick := 0 }
  else { t with tick := t.tick + 1 }

/-- The `ProjectileCreated` event a single tower contributes in one
`process_towers` pass, if any. -/
def spawnEvent (t : Tower) : Option Event :=
  if t.health ≤ 0 then none
  else if t.rate ≤ t.tick + 1 then
    some (Event.projectileCreated ((t.position.1 : ℚ), (t.position.2 : ℚ)) t.direction)
  else none

/-- The projectile a single tower contributes in one `process_towers`
pass, if any. -/
def spawnProjectile (t : Tower) : Option Projectile :=
  if t.health ≤ 0 then none
  else if t.rate ≤ t.tick + 1 then
    some ⟨((t.position.1 : ℚ), (t.position.2 : ℚ)), t.direction⟩
  else none

/-- Number of `RoundOver` events in a list. -/
def countRoundOver (events : List Event) : ℕ :=
  events.countP fun e => match e with | Event.roundOver _ => true | _ => false

/-- Number of `ProjectileCreated` events in a list. -/
def countProjectileCreated (events : List Event) : ℕ :=
  events.countP fun e => match e with | Event.projectileCreated _ _ => true | _ => false

/-- Whether a list contains an `AgentDamaged` event. -/
def hasAgentDamaged (events : List Event) : Bool :=
  events.any fun e => match e with | Event.agentDamaged _ _ => true | _ => false

/-- Events that the tower/projectile phases and the reached-target check
can produce (everything except tower damage and round-over events). -/
def isPhaseEvent (e : Event) : Bool :=
  match e with
  | Event.agentMoved _ => true
  | Event.projectileCreated _ _ => true
  | Event.agentDamaged _ _ => true
  | Event.projectileRemoved _ => true
  | _ => false

/-- `TowerDamaged` or `TowerDestroyed`. -/
def isTowerEvent (e : Event) : Bool :=
  match e with
  | Event.towerDamaged _ _ _ => true
  | Event.towerDestroyed _ => true
  | _ => false

/-- Modelled from the spec for comparison with the code: the Manhattan
distance from the agent to the nearest living tower, i.e. the minimum
over all towers with positive health (`none` when no tower lives). -/
def nearestLivingTowerDistance (s : RoundState) : Option ℕ :=
  ((s.towers.filter fun t => decide (0 < t.health)).map
    fun t => manhattan_distance s.position t.position).min?

/-- Run `step` a number of times with the same action, collecting all events. -/
def iterateStep (a : Directive) : ℕ → RoundState → RoundState × List Event
  | 0, s => (s, [])
  | n + 1, s =>
    let r := step s a
    let rest := iterateStep a n r.state
    (rest.1, r.events ++ rest.2)

/-- An all-`EMPTY` grid layout. -/
def emptyGrid (w h : ℕ) : List (List BlockType) :=
  List.replicate h (List.replicate w BlockType.EMPTY)

/-- The round-trip the corrected claim C6 is about: `transform` with
`rotate_quarters = k`, then `transform` with `rotate_quarters = -k` and
the two flips swapped when the rotation is odd. -/
def doubleTransform (s : RoundState) (k : ℤ) (flip_h flip_v : Bool) : RoundState :=
  (s.transform k flip_h flip_v).transform (-k)
    (if k % 4 = 1 ∨ k % 4 = 3 then flip_v else flip_h)
    (if k % 4 = 1 ∨ k % 4 = 3 then flip_h else flip_v)

/-! ### Concrete states used in scenarios, counterexamples and witnesses -/

/-- The testable-properties scenario of the spec: 16×16 empty grid, one
tower at `(3,3)` facing `(1,0)` with `rate = 8`, agent at `(0,0)`,
no active directive. -/
def towerScenario : RoundState :=
  { grid_width := 16, grid_height := 16, grid_layout := emptyGrid 16 16,
    towers := [⟨(3, 3), (1, 0), 100, 8, 0, "t1"⟩],
    projectiles := [],
    current_active_directive := none, last_interrupted_directive := none,
    position := (0, 0), health := 100, tick_index := 0 }

/-- Two living towers whose list order differs from their distance order:
the first tower is 5 cells from the agent, the second only 2. -/
def snapshotState : RoundState :=
  { grid_width := 6, grid_height := 6, grid_layout := emptyGrid 6 6,
    towers := [⟨(5, 0), (1, 0), 100, 100, 0, "a"⟩, ⟨(0, 2), (1, 0), 100, 100, 0, "b"⟩],
    projectiles := [],
    current_active_directive := none, last_interrupted_directive := none,
    position := (0, 0), health := 100, tick_index := 0 }

/-- Agent at `(2,2)` about to move up while a projectile flies from
`(3,2)` onto `(2,2)`: the projectile lands on the vacated cell but the
agent does not move onto the projectile's old cell. -/
def crossingState : RoundState :=
  { grid_width := 6, grid_height := 6, grid_layout := emptyGrid 6 6,
    towers := [⟨(5, 5), (1, 0), 100, 100, 0, "t"⟩],
    projectiles := [⟨(3, 2), (-1, 0)⟩],
    current_active_directive := none, last_interrupted_directive := none,
    position := (2, 2), health := 100, tick_index := 0 }

/-- The spec's symmetric crossing scenario: agent `(2,2) → (3,2)` while a
projectile flies `(3,2) → (2,2)` in the same tick. -/
def swapState : RoundState :=
  { grid_width := 6, grid_height := 6, grid_layout := emptyGrid 6 6,
    towers := [⟨(5, 5), (1, 0), 100, 100, 0, "t"⟩],
    projectiles := [⟨(3, 2), (-1, 0)⟩],
    current_active_directive := none, last_interrupted_directive := none,
    position := (2, 2), health := 100, tick_index := 0 }

/-- 3×3 grid whose middle column is a wall, with a living tower on
`(2,2)`: the goal `(2,2)` is invalid, its only valid neighbor `(2,1)`
is unreachable from `(0,0)`. -/
def walledState : RoundState :=
  { grid_width := 3, grid_height := 3,
    grid_layout :=
      [[BlockType.EMPTY, BlockType.WALL, BlockType.EMPTY],
       [BlockType.EMPTY, BlockType.WALL, BlockType.EMPTY],
       [BlockType.EMPTY, BlockType.WALL, BlockType.EMPTY]],
    towers := [⟨(2, 2), (1, 0), 100, 100, 0, "T"⟩],
    projectiles := [],
    current_active_directive := none, last_interrupted_directive := none,
    position := (0, 0), health := 100, tick_index := 0 }

/-- A small non-square state with assorted cell kinds, a tower and a
projectile, used to refute the uncorrected transform round-trip. -/
def transformState : RoundState :=
  { grid_width := 3, grid_height := 2,
    grid_layout :=
      [[BlockType.EMPTY, BlockType.WALL, BlockType.EMPTY],
       [BlockType.START, BlockType.TOWER, BlockType.WALL]],
    towers := [⟨(2, 0), (1, 0), 100, 8, 0, "w"⟩],
    projectiles := [⟨(0, 1), (0, -1)⟩],
    current_active_directive := none, last_interrupted_directive := none,
    position := (0, 0), health := 100, tick_index := 0 }

/-- A state with an empty tower list: the round-over condition holds
vacuously. -/
def emptyTowersState : RoundState :=
  { grid_width := 4, grid_height := 4, grid_layout := emptyGrid 4 4,
    towers := [], projectiles := [],
    current_active_directive := none, last_interrupted_directive := none,
    position := (1, 1), health := 100, tick_index := 0 }

/-- A post-move situation for the crossing-paths rule: the agent has just
moved from `(2,2)` to `(2,3)` and one projectile has flown from `(3,2)`
onto `(2,2)`. -/
def projState : RoundState :=
  { grid_width := 6, grid_height := 6, grid_layout := emptyGrid 6 6,
    towers := [⟨(5, 5), (1, 0), 100, 100, 0, "t"⟩],
    projectiles := [⟨(3, 2), (-1, 0)⟩],
    current_active_directive := none, last_interrupted_directive := none,
    position := (2, 3), health := 100, tick_index := 0 }

/-- All cell coordinates `(x, y)` with `x < w` and `y` drawn from the
given list, in the row-major order of the transform fill loop. -/
def cellIndices (w : ℕ) : List ℕ → List (ℕ × ℕ)
  | [] => []
  | y :: ys => ((List.range w).map fun x => (x, y)) ++ cellIndices w ys

/-- One write of the transform fill loop: copy source cell `p` to its
transformed coordinates. -/
def writeCell (src : List (List BlockType)) (f : ℕ → ℕ → ℤ × ℤ)
    (g : List (List BlockType)) (p : ℕ × ℕ) : List (List BlockType) :=
  setCell g (f p.1 p.2).1.toNat (f p.1 p.2).2.toNat (getCell src p.1 p.2)

/-! ## Theorems -/

/-- C4 counterexample: `(0,0)` is a valid cell of `walledState`, yet
`find_path` applied with `start = end = (0,0)` returns the empty path,
not the single-element path `[(0,0)]` the claim states. -/
theorem c4_start_eq_goal_counterexample :
    walledState.is_position_valid 0 0 = true ∧
    find_path walledState (0, 0) (0, 0) = [] ∧
    find_path walledState (0, 0) (0, 0) ≠ [(0, 0)] := by
  refine ⟨by decide, by decide, by decide⟩

/-- C4 amended: for every state and every cell `p` (valid or not),
`find_path s p p` returns the empty path, because of the
`if start == end: return []` early return at the top of `find_path`. -/
theorem c4_start_eq_goal_empty (s : RoundState) (p : ℤ × ℤ) :
    find_path s p p = [] := by
  unfold find_path
  rw [if_pos rfl]

/-- C7: `find_path` terminates on every input.  The A* loop runs on an
explicit iteration budget: with the budget exhausted it returns the empty
sequence, with an empty open set it returns the empty sequence, the
search is always entered with budget `4 * grid_width * grid_height`
(conjunct three), and every `find_path` result is either an early-exit
value (`[]` or `[start]`) or the result of that bounded search. -/
theorem c7_find_path_bounded_termination :
    (∀ (s : RoundState) (goal : ℤ × ℤ) (st : SearchState), astarLoop s goal 0 st = []) ∧
    (∀ (s : RoundState) (goal : ℤ × ℤ) (fuel : ℕ) (cf : List ((ℤ × ℤ) × (ℤ × ℤ)))
        (g f : List ((ℤ × ℤ) × ℕ)) (oh : List (ℤ × ℤ)) (c : ℕ),
        astarLoop s goal fuel ⟨[], cf, g, f, oh, c⟩ = []) ∧
    (∀ (s : RoundState) (start goal : ℤ × ℤ),
        astarSearch s start goal =
          astarLoop s goal (s.grid_width * s.grid_height * 4)
            ⟨[(heuristic start goal, 0, start)], [], [(start, 0)],
             [(start, heuristic start goal)], [start], 0⟩) ∧
    (∀ (s : RoundState) (start endPos : ℤ × ℤ),
        find_path s start endPos = [] ∨ find_path s start endPos = [start] ∨
        ∃ goal, find_path s start endPos = astarSearch s start goal) := by
  refine ⟨fun s goal st => rfl, fun s goal fuel cf g f oh c => ?_, fun s start goal => rfl, ?_⟩
  · cases fuel <;> rfl
  · intro s start endPos
    unfold find_path
    split
    · exact Or.inl rfl
    split
    · exact Or.inl rfl
    split
    · exact Or.inl rfl
    split
    · dsimp only
      split
      · exact Or.inr (Or.inl rfl)
      · exact Or.inr (Or.inr ⟨_, rfl⟩)
    · split
      · dsimp only
        exact Or.inl rfl
      · dsimp only
        split
        · exact Or.inr (Or.inl rfl)
        · exact Or.inr (Or.inr ⟨_, rfl⟩)

/-- C1 counterexample: in the spec's 16×16 scenario (one living tower of
rate 8), eight consecutive `step` calls with `Resume` and no active
directive emit no event at all — in particular the 8th call does not emit
a `ProjectileCreated` — because `Resume` with no active directive takes
the missing-directive early return before `process_towers` runs. -/
theorem c1_resume_counterexample :
    (iterateStep Directive.resume 8 towerScenario).2 = [] ∧
    countProjectileCreated (iterateStep Directive.resume 8 towerScenario).2 = 0 := by
  refine ⟨by with_unfolding_all decide, by with_unfolding_all decide⟩

/-- C2 counterexample: the agent moves `(2,2) → (2,3)` while a projectile
flies `(3,2) → (2,2)`.  The projectile's rounded post-move position
`(2,2)` differs from the agent's post-tick position `(2,3)`, it equals
the agent's pre-tick position, but the agent's post-tick position does
not equal the projectile's pre-move rounded cell `(3,2)` — no swap — and
the code still damages the agent (`AgentDamaged` fires, health 90). -/
theorem c2_crossing_counterexample :
    (step crossingState (Directive.move (2, 3))).state.position = (2, 3) ∧
    roundedNewPosition ⟨(3, 2), (-1, 0)⟩ = (2, 2) ∧
    crossingState.position = (2, 2) ∧
    ((2, 3) : ℤ × ℤ) ≠ ((3, 2) : ℤ × ℤ) ∧
    (step crossingState (Directive.move (2, 3))).events =
      [Event.agentMoved (2, 3), Event.agentMoved (2, 3),
       Event.agentDamaged 10 90, Event.projectileRemoved ((2 : ℚ), (2 : ℚ))] := by
  refine ⟨by with_unfolding_all decide, by with_unfolding_all decide, by decide,
    by decide, by with_unfolding_all decide⟩

/-- C3 counterexample: `emptyTowersState` is terminal after the tick
(its tower list is empty), yet a `step` call with `Resume` and no active
directive returns without any `RoundOver` event: the early return skips
the round-over check. -/
theorem c3_early_return_counterexample :
    (step emptyTowersState Directive.resume).state.is_round_over = true ∧
    countRoundOver (step emptyTowersState Directive.resume).events = 0 := by
  refine ⟨by with_unfolding_all decide, by with_unfolding_all decide⟩

/-- C5 counterexample: in `snapshotState` the first living tower is 5
cells away while the nearest is 2 cells away; the code's snapshot is 5,
not the minimum 2, and after the move `(0,0) → (1,0)` the returned
reward is `9/5` whereas the same shaping fold seeded with the true
nearest distance 2 yields `4/5`. -/
theorem c5_snapshot_counterexample :
    oldDistanceToNearestTower snapshotState = 5 ∧
    nearestLivingTowerDistance snapshotState = some 2 ∧
    (5 : ℕ) ≠ 2 ∧
    (step snapshotState (Directive.move (1, 0))).reward = 9 / 5 ∧
    shapedReward (step snapshotState (Directive.move (1, 0))).state
      (step snapshotState (Directive.move (1, 0))).events 2 = 4 / 5 ∧
    ((9 : ℚ) / 5) ≠ 4 / 5 := by
  refine ⟨by decide, by decide, by decide, by with_unfolding_all decide, by with_unfolding_all decide, by with_unfolding_all decide⟩

/-- C6 counterexample: for the odd rotation `k = 1` with a horizontal
flip, `transform(transform(s, 1, true, false), -1, true, false)` (the
claim's round trip, same flips) does not reconstruct the agent position:
it maps `(0,0)` to `(2,1)` on the 3×2 grid `transformState`. -/
theorem c6_double_transform_counterexample :
    ((transformState.transform 1 true false).transform (-1) true false).position = (2, 1) ∧
    transformState.position = (0, 0) ∧
    ((2, 1) : ℤ × ℤ) ≠ ((0, 0) : ℤ × ℤ) := by
  refine ⟨by with_unfolding_all decide, by decide, by decide⟩

/-- C10 counterexample: in `walledState` the start `(0,0)` is valid, the
goal `(2,2)` is in bounds but invalid (living tower) and has the valid
neighbor `(2,1)`, yet `find_path` returns the empty sequence because the
wall column makes the substituted goal unreachable. -/
theorem c10_substitution_counterexample :
    walledState.is_position_valid 0 0 = true ∧
    walledState.is_position_valid 2 2 = false ∧
    altEnds walledState (2, 2) = [(2, 1)] ∧
    find_path walledState (0, 0) (2, 2) = [] := by
  refine ⟨by decide, by decide, by decide, by decide⟩

/-! ### Helper lemmas -/

lemma foldl_processOneTower (ts ts0 : List Tower) (ps0 : List Projectile) (evs0 : List Event) :
    ts.foldl processOneTower (ts0, ps0, evs0) =
      (ts0 ++ ts.map tickTower, ps0 ++ ts.filterMap spawnProjectile,
       evs0 ++ ts.filterMap spawnEvent) := by
  induction ts generalizing ts0 ps0 evs0 with
  | nil => simp
  | cons t ts ih =>
    simp only [List.foldl_cons, List.map_cons, List.filterMap_cons]
    by_cases h1 : t.health ≤ 0
    · simp only [processOneTower, if_pos h1, tickTower, spawnEvent, spawnProjectile, ih]
      simp [h1]
    · by_cases h2 : t.rate ≤ t.tick + 1
      · simp only [processOneTower, if_neg h1, tickTower, spawnEvent, spawnProjectile, ih]
        simp [h1, h2]
      · simp only [processOneTower, if_neg h1, tickTower, spawnEvent, spawnProjectile, ih]
        simp [h1, h2]

/-- Full characterization of `process_towers`. -/
lemma process_towers_spec (s : RoundState) (events : List Event) :
    process_towers s events =
      ({ s with towers := s.towers.map tickTower,
                projectiles := s.projectiles ++ s.towers.filterMap spawnProjectile },
       events ++ s.towers.filterMap spawnEvent) := by
  unfold process_towers
  rw [foldl_processOneTower]
  simp

lemma spawnEvent_isPhase {t : Tower} {e : Event} (h : spawnEvent t = some e) :
    isPhaseEvent e = true := by
  unfold spawnEvent at h
  split_ifs at h
  cases h
  rfl

lemma processOneProjectile_events (s : RoundState) (op : Option (ℤ × ℤ))
    (acc : ℤ × List Event × List Projectile) (p : Projectile) :
    ∃ extra, (processOneProjectile s op acc p).2.1 = acc.2.1 ++ extra ∧
      ∀ e ∈ extra, isPhaseEvent e = true := by
  obtain ⟨h0, evs0, sv0⟩ := acc
  unfold processOneProjectile
  dsimp only
  split_ifs
  all_goals
    first
      | (refine ⟨_, rfl, ?_⟩
         intro e he
         fin_cases he <;> rfl)
      | exact ⟨[], by simp, by simp⟩

lemma foldl_processOneProjectile_events (s : RoundState) (op : Option (ℤ × ℤ))
    (ps : List Projectile) (h0 : ℤ) (evs0 : List Event) (sv0 : List Projectile) :
    ∃ extra, (ps.foldl (processOneProjectile s op) (h0, evs0, sv0)).2.1 = evs0 ++ extra ∧
      ∀ e ∈ extra, isPhaseEvent e = true := by
  induction ps generalizing h0 evs0 sv0 with
  | nil => exact ⟨[], by simp, by simp⟩
  | cons p ps ih =>
    simp only [List.foldl_cons]
    obtain ⟨e1, he1, hm1⟩ := processOneProjectile_events s op (h0, evs0, sv0) p
    obtain ⟨e2, he2, hm2⟩ := ih (processOneProjectile s op (h0, evs0, sv0) p).1
      (processOneProjectile s op (h0, evs0, sv0) p).2.1
      (processOneProjectile s op (h0, evs0, sv0) p).2.2
    refine ⟨e1 ++ e2, ?_, ?_⟩
    · have h3 : (List.foldl (processOneProjectile s op)
          (processOneProjectile s op (h0, evs0, sv0) p) ps).2.1 =
          (processOneProjectile s op (h0, evs0, sv0) p).2.1 ++ e2 := he2
      rw [h3, he1, List.append_assoc]
    · intro e he
      rcases List.mem_append.1 he with h | h
      · exact hm1 e h
      · exact hm2 e h

lemma process_projectiles_events (s : RoundState) (events : List Event)
    (op : Option (ℤ × ℤ)) :
    ∃ extra, (process_projectiles s events op).2 = events ++ extra ∧
      ∀ e ∈ extra, isPhaseEvent e = true := by
  unfold process_projectiles
  exact foldl_processOneProjectile_events s op s.projectiles s.health events []

lemma countRoundOver_append (a b : List Event) :
    countRoundOver (a ++ b) = countRoundOver a + countRoundOver b :=
  List.countP_append _ _ _

lemma countRoundOver_of_phase {evs : List Event} (h : ∀ e ∈ evs, isPhaseEvent e = true) :
    countRoundOver evs = 0 := by
  unfold countRoundOver
  rw [List.countP_eq_zero]
  intro e he
  have := h e he
  cases e <;> simp_all [isPhaseEvent]

lemma reachedTargetCheck_events (s2 : RoundState) (evs2 : List Event) :
    ∃ extra, (reachedTargetCheck s2 evs2).2 = evs2 ++ extra ∧
      ∀ e ∈ extra, isPhaseEvent e = true := by
  unfold reachedTargetCheck
  split
  · split
    · exact ⟨[Event.agentMoved s2.position], rfl, by intro e he; fin_cases he; rfl⟩
    · exact ⟨[], by simp, by simp⟩
  · exact ⟨[], by simp, by simp⟩

lemma reachedTargetCheck_towers (s2 : RoundState) (evs2 : List Event) :
    (reachedTargetCheck s2 evs2).1.towers = s2.towers := by
  unfold reachedTargetCheck
  split
  · split <;> rfl
  · rfl

lemma stepPhases_events (s2 : RoundState) (evs2 : List Event) (op : ℤ × ℤ) :
    ∃ extra, (stepPhases s2 evs2 op).2 = evs2 ++ extra ∧
      ∀ e ∈ extra, isPhaseEvent e = true := by
  obtain ⟨e1, he1, hm1⟩ := reachedTargetCheck_events s2 evs2
  obtain ⟨e3, he3, hm3⟩ := process_projectiles_events
    (process_towers (reachedTargetCheck s2 evs2).1 (reachedTargetCheck s2 evs2).2).1
    (process_towers (reachedTargetCheck s2 evs2).1 (reachedTargetCheck s2 evs2).2).2
    (if op = (process_towers (reachedTargetCheck s2 evs2).1 (reachedTargetCheck s2 evs2).2).1.position
      then none else some op)
  have hpt : (process_towers (reachedTargetCheck s2 evs2).1 (reachedTargetCheck s2 evs2).2).2 =
      (reachedTargetCheck s2 evs2).2 ++
        (reachedTargetCheck s2 evs2).1.towers.filterMap spawnEvent := by
    rw [process_towers_spec]
  refine ⟨(e1 ++ (reachedTargetCheck s2 evs2).1.towers.filterMap spawnEvent) ++ e3, ?_, ?_⟩
  · have hsp : (stepPhases s2 evs2 op).2 = (process_projectiles
        (process_towers (reachedTargetCheck s2 evs2).1 (reachedTargetCheck s2 evs2).2).1
        (process_towers (reachedTargetCheck s2 evs2).1 (reachedTargetCheck s2 evs2).2).2
        (if op = (process_towers (reachedTargetCheck s2 evs2).1
            (reachedTargetCheck s2 evs2).2).1.position then none else some op)).2 := rfl
    rw [hsp, he3, hpt, he1]
    simp [List.append_assoc]
  · intro e he
    rcases List.mem_append.1 he with h | h
    · rcases List.mem_append.1 h with h2 | h2
      · exact hm1 e h2
      · obtain ⟨t, _, ht⟩ := List.mem_filterMap.1 h2
        exact spawnEvent_isPhase ht
    · exact hm3 e h

lemma stepPhases_towers (s2 : RoundState) (evs2 : List Event) (op : ℤ × ℤ) :
    (stepPhases s2 evs2 op).1.towers = s2.towers.map tickTower := by
  have hsp : (stepPhases s2 evs2 op).1.towers =
      (process_towers (reachedTargetCheck s2 evs2).1 (reachedTargetCheck s2 evs2).2).1.towers := rfl
  rw [hsp]
  have hpt : (process_towers (reachedTargetCheck s2 evs2).1 (reachedTargetCheck s2 evs2).2).1.towers =
      (reachedTargetCheck s2 evs2).1.towers.map tickTower := by
    rw [process_towers_spec]
  rw [hpt, reachedTargetCheck_towers]

lemma stepRest_early (s2 : RoundState) (evs2 : List Event) (op : ℤ × ℤ) (od : ℕ) :
    (stepRest s2 evs2 op od).early = false := by
  simp only [stepRest]
  split <;> rfl

lemma stepRest_state (s2 : RoundState) (evs2 : List Event) (op : ℤ × ℤ) (od : ℕ) :
    (stepRest s2 evs2 op od).state = (stepPhases s2 evs2 op).1 := by
  simp only [stepRest]
  split <;> rfl

lemma stepRest_events (s2 : RoundState) (evs2 : List Event) (op : ℤ × ℤ) (od : ℕ) :
    (stepRest s2 evs2 op od).events = (stepPhases s2 evs2 op).2 ++
      (if (stepPhases s2 evs2 op).1.is_round_over then
        [Event.roundOver (decide (0 < (stepPhases s2 evs2 op).1.health))] else []) := by
  simp only [stepRest]
  split
  · rfl
  · simp

lemma stepRest_reward (s2 : RoundState) (evs2 : List Event) (op : ℤ × ℤ) (od : ℕ) :
    (stepRest s2 evs2 op od).reward =
      shapedReward (stepPhases s2 evs2 op).1 (stepPhases s2 evs2 op).2 od +
      (if (stepPhases s2 evs2 op).1.is_round_over then
        (if 0 < (stepPhases s2 evs2 op).1.health then (200 : ℚ) else -100) else 0) := by
  simp only [stepRest]
  split
  · split
    · rfl
    · exact sub_eq_add_neg _ _
  · exact (add_zero _).symm

lemma oldDistance_tick (s : RoundState) (n : ℕ) :
    oldDistanceToNearestTower { s with tick_index := n } = oldDistanceToNearestTower s := rfl

/-- Case analysis on `step`: every call either takes an early return
(with an empty event list), or is a `stepRest` continuation on events
that are all tower events or phase events, and with towers untouched by
the directive resolution when the tower list is empty. -/
lemma step_cases (s : RoundState) (a : Directive) :
    ((step s a).early = true ∧ (step s a).events = []) ∨
    ∃ s2 evs2, step s a = stepRest s2 evs2 s.position (oldDistanceToNearestTower s) ∧
      (∀ e ∈ evs2, isTowerEvent e = true ∨ isPhaseEvent e = true) ∧
      (s.towers = [] → (∀ e ∈ evs2, isPhaseEvent e = true) ∧ s2.towers = []) := by
  by_cases hA : a = Directive.resume
  · subst hA
    simp only [step]
    rw [if_neg (show ¬(Directive.resume ≠ Directive.resume) from by simp)]
    dsimp only
    simp only [oldDistance_tick]
    rcases hcd : s.current_active_directive with _ | d
    · exact Or.inl ⟨rfl, rfl⟩
    · cases d with
      | move target =>
        try dsimp only
        split_ifs <;>
          first
            | exact Or.inl ⟨rfl, rfl⟩
            | (refine Or.inr ⟨_, _, rfl, ?_, ?_⟩
               · intro e he
                 fin_cases he <;> (right; rfl)
               · intro ht
                 refine ⟨?_, ht⟩
                 intro e he
                 fin_cases he <;> rfl)
      | attack tid =>
        try dsimp only
        split
        · next tower heq =>
          try dsimp only
          split_ifs <;>
            (refine Or.inr ⟨_, _, rfl, ?_, fun ht => absurd heq ?_⟩
             · intro e he
               fin_cases he <;> (left; rfl)
             · simp [find_nearby_tower, ht])
        · next heq =>
          refine Or.inr ⟨_, _, rfl, ?_, ?_⟩
          · intro e he
            exact absurd he (List.not_mem_nil e)
          · intro ht
            exact ⟨fun e he => absurd he (List.not_mem_nil e), ht⟩
      | stand =>
        refine Or.inr ⟨_, _, rfl, ?_, ?_⟩
        · intro e he
          exact absurd he (List.not_mem_nil e)
        · intro ht
          exact ⟨fun e he => absurd he (List.not_mem_nil e), ht⟩
      | resume =>
        refine Or.inr ⟨_, _, rfl, ?_, ?_⟩
        · intro e he
          exact absurd he (List.not_mem_nil e)
        · intro ht
          exact ⟨fun e he => absurd he (List.not_mem_nil e), ht⟩
  · simp only [step, ne_eq]
    rw [if_pos hA]
    dsimp only
    simp only [oldDistance_tick]
    cases a with
    | move target =>
      try dsimp only
      split_ifs <;>
        first
          | exact Or.inl ⟨rfl, rfl⟩
          | (refine Or.inr ⟨_, _, rfl, ?_, ?_⟩
             · intro e he
               fin_cases he <;> (right; rfl)
             · intro ht
               refine ⟨?_, ht⟩
               intro e he
               fin_cases he <;> rfl)
    | attack tid =>
      try dsimp only
      split
      · next tower heq =>
        try dsimp only
        split_ifs <;>
          (refine Or.inr ⟨_, _, rfl, ?_, fun ht => absurd heq ?_⟩
           · intro e he
             fin_cases he <;> (left; rfl)
           · simp [find_nearby_tower, ht])
      · next heq =>
        refine Or.inr ⟨_, _, rfl, ?_, ?_⟩
        · intro e he
          exact absurd he (List.not_mem_nil e)
        · intro ht
          exact ⟨fun e he => absurd he (List.not_mem_nil e), ht⟩
    | stand =>
      refine Or.inr ⟨_, _, rfl, ?_, ?_⟩
      · intro e he
        exact absurd he (List.not_mem_nil e)
      · intro ht
        exact ⟨fun e he => absurd he (List.not_mem_nil e), ht⟩
    | resume => exact absurd rfl hA

lemma countRoundOver_of_no_roundOver {evs : List Event}
    (h : ∀ e ∈ evs, isTowerEvent e = true ∨ isPhaseEvent e = true) :
    countRoundOver evs = 0 := by
  unfold countRoundOver
  rw [List.countP_eq_zero]
  intro e he
  rcases h e he with h2 | h2 <;> cases e <;> simp_all [isTowerEvent, isPhaseEvent]

lemma isTowerEvent_eq_false_of_phase {e : Event} (h : isPhaseEvent e = true) :
    isTowerEvent e = false := by
  cases e <;> simp_all [isPhaseEvent, isTowerEvent]

lemma shapedReward_no_towers {s : RoundState} (evs : List Event) (od : ℕ)
    (h : s.towers = []) : shapedReward s evs od = eventReward evs := by
  unfold shapedReward
  rw [h]
  rfl

lemma is_round_over_of_no_towers {s : RoundState} (h : s.towers = []) :
    s.is_round_over = true := by
  unfold RoundState.is_round_over
  rw [h]
  simp

/-- C3 amended: on every `step` call that does not take an early return
from directive resolution, exactly one `RoundOver` event is appended —
at the end of the event list — iff the post-tick state is terminal, with
`agent_survived = (health > 0)` and the matching terminal bonus/penalty
added to the reward; early-return calls never emit `RoundOver`, even on
terminal states. -/
theorem c3_round_over_amended (s : RoundState) (a : Directive) :
    ((step s a).early = true → countRoundOver (step s a).events = 0) ∧
    ((step s a).early = false →
      ∃ evs, (step s a).events = evs ++
          (if (step s a).state.is_round_over then
            [Event.roundOver (decide (0 < (step s a).state.health))] else []) ∧
        countRoundOver evs = 0 ∧
        (step s a).reward = shapedReward (step s a).state evs (oldDistanceToNearestTower s) +
          (if (step s a).state.is_round_over then
            (if 0 < (step s a).state.health then (200 : ℚ) else -100) else 0)) := by
  rcases step_cases s a with ⟨he, hev⟩ | ⟨s2, evs2, heq, hmem, _⟩
  · constructor
    · intro _
      rw [hev]
      rfl
    · intro hf
      rw [he] at hf
      cases hf
  · constructor
    · intro hearly
      rw [heq, stepRest_early] at hearly
      cases hearly
    · intro _
      rw [heq, stepRest_events, stepRest_state, stepRest_reward]
      obtain ⟨extra, hex, hmx⟩ := stepPhases_events s2 evs2 s.position
      refine ⟨(stepPhases s2 evs2 s.position).2, rfl, ?_, rfl⟩
      rw [hex, countRoundOver_append, countRoundOver_of_no_roundOver hmem,
        countRoundOver_of_phase hmx]

/-- C3 witness: a concrete non-early call (one tower, `Stand`): the
round is not over, no `RoundOver` is emitted and the reward carries no
terminal term. -/
theorem c3_round_over_witness :
    ∃ evs, (step towerScenario Directive.stand).events = evs ++
        (if (step towerScenario Directive.stand).state.is_round_over then
          [Event.roundOver (decide (0 < (step towerScenario Directive.stand).state.health))]
         else []) ∧
      countRoundOver evs = 0 ∧
      (step towerScenario Directive.stand).reward =
        shapedReward (step towerScenario Directive.stand).state evs
          (oldDistanceToNearestTower towerScenario) +
        (if (step towerScenario Directive.stand).state.is_round_over then
          (if 0 < (step towerScenario Directive.stand).state.health then (200 : ℚ) else -100)
         else 0) :=
  (c3_round_over_amended towerScenario Directive.stand).2 (by decide)

/-- C9: with an empty tower list `is_round_over` holds vacuously, so any
non-early `step` call on such a state emits `RoundOver` with
`agent_survived = (health > 0)` and adds the terminal bonus (or penalty)
to the reward even though no tower event ever occurred. -/
theorem c9_empty_towers_round_over :
    (∀ s : RoundState, s.towers = [] → s.is_round_over = true) ∧
    (∀ (s : RoundState) (a : Directive), s.towers = [] → (step s a).early = false →
      (step s a).state.is_round_over = true ∧
      ∃ evs, (step s a).events = evs ++
          [Event.roundOver (decide (0 < (step s a).state.health))] ∧
        (∀ e ∈ evs, isTowerEvent e = false) ∧
        (step s a).reward = eventReward evs +
          (if 0 < (step s a).state.health then (200 : ℚ) else -100)) := by
  refine ⟨fun s h => is_round_over_of_no_towers h, ?_⟩
  intro s a ht hne
  rcases step_cases s a with ⟨he, _⟩ | ⟨s2, evs2, heq, _, himp⟩
  · rw [he] at hne
    cases hne
  · obtain ⟨hphase2, hs2t⟩ := himp ht
    have hstate_towers : (step s a).state.towers = [] := by
      rw [heq, stepRest_state, stepPhases_towers, hs2t]
      rfl
    have hro : (step s a).state.is_round_over = true :=
      is_round_over_of_no_towers hstate_towers
    refine ⟨hro, ?_⟩
    obtain ⟨extra, hex, hmx⟩ := stepPhases_events s2 evs2 s.position
    have hro2 : (stepPhases s2 evs2 s.position).1.is_round_over = true := by
      rw [heq, stepRest_state] at hro
      exact hro
    refine ⟨(stepPhases s2 evs2 s.position).2, ?_, ?_, ?_⟩
    · rw [heq, stepRest_events, stepRest_state, hro2]
      simp
    · intro e he
      rw [hex] at he
      rcases List.mem_append.1 he with h | h
      · exact isTowerEvent_eq_false_of_phase (hphase2 e h)
      · exact isTowerEvent_eq_false_of_phase (hmx e h)
    · rw [heq, stepRest_reward, stepRest_state, hro2, if_pos rfl]
      rw [shapedReward_no_towers _ _ (by rw [stepPhases_towers, hs2t]; rfl)]

/-- C9 witness: `emptyTowersState` with `Stand` reaches the round-over
check, emits `RoundOver true` and gets the survival bonus. -/
theorem c9_empty_towers_witness :
    (step emptyTowersState Directive.stand).state.is_round_over = true ∧
    ∃ evs, (step emptyTowersState Directive.stand).events = evs ++
        [Event.roundOver (decide (0 < (step emptyTowersState Directive.stand).state.health))] ∧
      (∀ e ∈ evs, isTowerEvent e = false) ∧
      (step emptyTowersState Directive.stand).reward = eventReward evs +
        (if 0 < (step emptyTowersState Directive.stand).state.health then (200 : ℚ) else -100) :=
  c9_empty_towers_round_over.2 emptyTowersState Directive.stand rfl (by decide)

lemma stepPhases_directive (s2 : RoundState) (evs2 : List Event) (op : ℤ × ℤ) :
    (stepPhases s2 evs2 op).1.current_active_directive = s2.current_active_directive ∨
    (stepPhases s2 evs2 op).1.current_active_directive = none := by
  have hp : (stepPhases s2 evs2 op).1.current_active_directive =
      (reachedTargetCheck s2 evs2).1.current_active_directive := rfl
  rw [hp]
  unfold reachedTargetCheck
  split
  · split
    · right
      rfl
    · left
      rfl
  · left
    rfl

/-- C8: if neither stored directive slot holds `Resume`, then after any
`step` call (with any input action, `Resume` and `Stand` included) the
active directive is still never `Resume`: `Resume` only acts as the
input meaning "continue whatever is active". -/
theorem c8_resume_never_stored (s : RoundState) (a : Directive)
    (h1 : s.current_active_directive ≠ some Directive.resume)
    (h2 : s.last_interrupted_directive ≠ some Directive.resume) :
    (step s a).state.current_active_directive ≠ some Directive.resume := by
  have hgen : ∀ (s2 : RoundState) (evs2 : List Event) (od : ℕ),
      s2.current_active_directive ≠ some Directive.resume →
      (stepRest s2 evs2 s.position od).state.current_active_directive ≠
        some Directive.resume := by
    intro s2 evs2 od hs2
    rw [stepRest_state]
    rcases stepPhases_directive s2 evs2 s.position with h | h <;> rw [h]
    · exact hs2
    · simp
  by_cases hA : a = Directive.resume
  · subst hA
    simp only [step]
    rw [if_neg (show ¬(Directive.resume ≠ Directive.resume) from by simp)]
    dsimp only
    rcases hcd : s.current_active_directive with _ | d
    · simp
    · cases d with
      | move target =>
        try dsimp only
        split_ifs <;>
          first
            | (simp [clearDirectives]; done)
            | (refine hgen _ _ _ ?_
               simp [clearDirectives])
      | attack tid =>
        try dsimp only
        split
        · next tower heq =>
          try dsimp only
          split_ifs <;>
            (refine hgen _ _ _ ?_
             simp [clearDirectives])
        · next heq =>
          refine hgen _ _ _ ?_
          simp [clearDirectives]
      | stand =>
        exact hgen _ _ _ h2
      | resume =>
        exact absurd hcd h1
  · simp only [step, ne_eq]
    rw [if_pos hA]
    dsimp only
    cases a with
    | move target =>
      try dsimp only
      split_ifs <;>
        first
          | (simp [clearDirectives]; done)
          | (refine hgen _ _ _ ?_
             simp [clearDirectives])
    | attack tid =>
      try dsimp only
      split
      · next tower heq =>
        try dsimp only
        split_ifs <;>
          (refine hgen _ _ _ ?_
           simp [clearDirectives])
      · next heq =>
        refine hgen _ _ _ ?_
        simp [clearDirectives]
    | stand =>
      exact hgen _ _ _ h1
    | resume => exact absurd rfl hA

/-- C8 witness at a concrete state and action. -/
theorem c8_resume_never_stored_witness :
    (step towerScenario Directive.resume).state.current_active_directive ≠
      some Directive.resume :=
  c8_resume_never_stored towerScenario Directive.resume (by decide) (by decide)

/-- C5 amended: the distance snapshot is the Manhattan distance to the
FIRST living tower in list order (0 when none lives), not to the nearest
one; the shaping fold then runs tower-by-tower from that snapshot.  On
`snapshotState` the snapshot is 5 while the true nearest distance is 2,
and the move `(0,0) → (1,0)` earns `-0.2 + 1 + 1 = 9/5` reward from the
first-tower-seeded fold. -/
theorem c5_snapshot_is_first_living_tower :
    (∀ (pos : ℤ × ℤ) (ts : List Tower),
        firstLivingTowerDistance pos ts =
          ((ts.find? fun t => decide (0 < t.health)).elim 0
            fun t => manhattan_distance pos t.position)) ∧
    oldDistanceToNearestTower snapshotState = 5 ∧
    nearestLivingTowerDistance snapshotState = some 2 ∧
    (step snapshotState (Directive.move (1, 0))).reward = 9 / 5 := by
  refine ⟨?_, by decide, by decide, by with_unfolding_all decide⟩
  intro pos ts
  induction ts with
  | nil => rfl
  | cons t ts ih =>
    by_cases h : 0 < t.health
    · simp [firstLivingTowerDistance, List.find?_cons, h]
    · simp [firstLivingTowerDistance, List.find?_cons, h, ih]

/-- C1 amended: `process_towers` advances every living tower's counter
and spawns exactly on reaching the rate (with reset and event), but it
only runs on `step` calls that do not early-return: `Resume` with no
active directive returns before tower processing, so only the `Stand`
runs of the spec scenario fire the projectile at the 8th tick. -/
theorem c1_tower_fire_on_stand :
    (∀ (s : RoundState) (events : List Event),
        process_towers s events =
          ({ s with towers := s.towers.map tickTower,
                    projectiles := s.projectiles ++ s.towers.filterMap spawnProjectile },
           events ++ s.towers.filterMap spawnEvent)) ∧
    (∀ s : RoundState, s.current_active_directive = none →
        step s Directive.resume =
          ⟨{ s with tick_index := s.tick_index + 1 }, [], -0.2, true⟩) ∧
    (iterateStep Directive.stand 8 towerScenario).2 =
      [Event.projectileCreated ((3 : ℚ), (3 : ℚ)) ((1 : ℚ), (0 : ℚ))] ∧
    (iterateStep Directive.stand 7 towerScenario).2 = [] := by
  refine ⟨process_towers_spec, ?_, by with_unfolding_all decide, by with_unfolding_all decide⟩
  intro s h
  simp only [step]
  rw [if_neg (show ¬(Directive.resume ≠ Directive.resume) from by simp)]
  dsimp only
  rw [h]

/-- C1 witness for the early-return conjunct at a concrete state. -/
theorem c1_tower_fire_witness :
    step towerScenario Directive.resume =
      ⟨{ towerScenario with tick_index := towerScenario.tick_index + 1 }, [], -0.2, true⟩ :=
  c1_tower_fire_on_stand.2.1 towerScenario rfl

/-- C2 amended: for a projectile whose rounded post-move cell differs
from the agent's post-tick position, and with a previous position
forwarded, the agent is damaged **iff** the rounded post-move cell
equals that previous position — the code does not additionally require
the agent to have moved onto the projectile's old cell.  The spec's
symmetric swap scenario is still a hit. -/
theorem c2_crossing_paths_hit :
    (∀ (s : RoundState) (p : Projectile) (op : ℤ × ℤ) (evs : List Event),
        s.projectiles = [p] → roundedNewPosition p ≠ s.position →
        hasAgentDamaged (process_projectiles s evs (some op)).2 =
          (hasAgentDamaged evs || decide (roundedNewPosition p = op))) ∧
    hasAgentDamaged (step swapState (Directive.move (3, 2))).events = true ∧
    (step swapState (Directive.move (3, 2))).state.position = (3, 2) := by
  refine ⟨?_, by with_unfolding_all decide, by with_unfolding_all decide⟩
  intro s p op evs hs hne
  unfold process_projectiles
  rw [hs]
  simp only [List.foldl_cons, List.foldl_nil]
  unfold processOneProjectile
  dsimp only
  rw [if_neg hne]
  by_cases hop : roundedNewPosition p = op
  · rw [if_pos (by simp [hop])]
    split_ifs <;> simp [hasAgentDamaged, List.any_append, hop]
  · rw [if_neg (by simp [hop])]
    split_ifs <;> simp [hasAgentDamaged, List.any_append, hop]

/-- C2 witness for the iff at a concrete post-move situation. -/
theorem c2_crossing_paths_witness :
    hasAgentDamaged (process_projectiles projState [] (some (2, 2))).2 =
      (hasAgentDamaged [] ||
        decide (roundedNewPosition ⟨(3, 2), (-1, 0)⟩ = ((2 : ℤ), (2 : ℤ)))) :=
  c2_crossing_paths_hit.1 projState ⟨(3, 2), (-1, 0)⟩ (2, 2) [] rfl
    (by with_unfolding_all decide)

lemma is_position_valid_bounds {s : RoundState} {x y : ℤ}
    (h : s.is_position_valid x y = true) :
    0 ≤ x ∧ x < (s.grid_width : ℤ) ∧ 0 ≤ y ∧ y < (s.grid_height : ℤ) := by
  unfold RoundState.is_position_valid at h
  split_ifs at h with h1
  refine ⟨?_, ?_, ?_, ?_⟩ <;> omega

lemma minByKey_mem (f : ℤ × ℤ → ℕ) (a : ℤ × ℤ) (l : List (ℤ × ℤ)) :
    minByKey f a l ∈ a :: l := by
  induction l generalizing a with
  | nil => simp [minByKey]
  | cons b l ih =>
    have key : minByKey f a (b :: l) = minByKey f (if f b < f a then b else a) l := rfl
    rw [key]
    by_cases h : f b < f a
    · rw [if_pos h]
      exact List.mem_cons_of_mem a (ih b)
    · rw [if_neg h]
      rcases List.mem_cons.1 (ih a) with h2 | h2
      · rw [h2]
        exact List.mem_cons_self a (b :: l)
      · exact List.mem_cons_of_mem a (List.mem_cons_of_mem b h2)

lemma minByKey_le (f : ℤ × ℤ → ℕ) (a : ℤ × ℤ) (l : List (ℤ × ℤ)) :
    ∀ q ∈ a :: l, f (minByKey f a l) ≤ f q := by
  induction l generalizing a with
  | nil =>
    intro q hq
    rcases List.mem_cons.1 hq with rfl | hq2
    · exact le_refl _
    · exact absurd hq2 (List.not_mem_nil q)
  | cons b l ih =>
    intro q hq
    have key : minByKey f a (b :: l) = minByKey f (if f b < f a then b else a) l := rfl
    rw [key]
    by_cases h : f b < f a
    · rw [if_pos h]
      rcases List.mem_cons.1 hq with rfl | hq2
      · exact le_trans (ih b b (List.mem_cons_self b l)) (le_of_lt h)
      · exact ih b q hq2
    · rw [if_neg h]
      rcases List.mem_cons.1 hq with rfl | hq2
      · exact ih _ _ (List.mem_cons_self _ _)
      · rcases List.mem_cons.1 hq2 with rfl | hq3
        · exact le_trans (ih a a (List.mem_cons_self a l)) (not_lt.1 h)
        · exact ih a q (List.mem_cons_of_mem a hq3)

/-- C10 amended: when the start is valid and the goal is in bounds but
invalid with at least one valid orthogonal neighbor, `find_path`
substitutes the valid neighbor closest to the start (first minimal in
offset order) as the new goal and searches for a path to it — but the
result can still be the empty sequence when that substituted goal is
unreachable. -/
theorem c10_invalid_goal_substitution (s : RoundState) (start endPos a : ℤ × ℤ)
    (rest : List (ℤ × ℤ))
    (hstart : s.is_position_valid start.1 start.2 = true)
    (hbnd : 0 ≤ endPos.1 ∧ endPos.1 < (s.grid_width : ℤ) ∧
            0 ≤ endPos.2 ∧ endPos.2 < (s.grid_height : ℤ))
    (hend : s.is_position_valid endPos.1 endPos.2 = false)
    (halt : altEnds s endPos = a :: rest) :
    find_path s start endPos =
      (if start = minByKey (fun p => manhattan_distance p start) a rest then [start]
       else astarSearch s start (minByKey (fun p => manhattan_distance p start) a rest)) ∧
    minByKey (fun p => manhattan_distance p start) a rest ∈ altEnds s endPos ∧
    ∀ q ∈ altEnds s endPos,
      manhattan_distance (minByKey (fun p => manhattan_distance p start) a rest) start ≤
        manhattan_distance q start := by
  have hneq : start ≠ endPos := by
    intro he
    rw [he] at hstart
    rw [show endPos = (endPos.1, endPos.2) from rfl] at hstart
    rw [hstart] at hend
    cases hend
  have hsb := is_position_valid_bounds hstart
  refine ⟨?_, ?_, ?_⟩
  · unfold find_path
    rw [if_neg hneq]
    rw [if_neg (not_not_intro
      ⟨hsb.1, hsb.2.1, hsb.2.2.1, hsb.2.2.2, hbnd.1, hbnd.2.1, hbnd.2.2.1, hbnd.2.2.2⟩)]
    rw [if_neg (not_not_intro hstart)]
    simp only [hend, halt]
    rfl
  · rw [halt]
    exact minByKey_mem _ a rest
  · intro q hq
    rw [halt] at hq
    exact minByKey_le (fun p => manhattan_distance p start) a rest q hq

/-- C10 witness: goal `(3,3)` of `towerScenario` is a living tower; the
substituted goal is `(3,2)`, the first of its valid neighbors at minimal
Manhattan distance from the start `(0,0)`. -/
theorem c10_invalid_goal_substitution_witness :
    find_path towerScenario (0, 0) (3, 3) =
      (if ((0 : ℤ), (0 : ℤ)) = minByKey (fun p => manhattan_distance p (0, 0)) (3, 4)
          [(4, 3), (3, 2), (2, 3)] then [((0 : ℤ), (0 : ℤ))]
       else astarSearch towerScenario (0, 0)
          (minByKey (fun p => manhattan_distance p (0, 0)) (3, 4) [(4, 3), (3, 2), (2, 3)])) ∧
    minByKey (fun p => manhattan_distance p (0, 0)) (3, 4) [(4, 3), (3, 2), (2, 3)] ∈
      altEnds towerScenario (3, 3) ∧
    ∀ q ∈ altEnds towerScenario (3, 3),
      manhattan_distance
          (minByKey (fun p => manhattan_distance p (0, 0)) (3, 4) [(4, 3), (3, 2), (2, 3)])
          (0, 0) ≤
        manhattan_distance q (0, 0) :=
  c10_invalid_goal_substitution towerScenario (0, 0) (3, 3) (3, 4) [(4, 3), (3, 2), (2, 3)]
    (by decide) (by decide) (by decide) (by decide)

lemma transformPoint_congr_mod (w h : ℕ) (k k2 : ℤ) (fh fv : Bool) (hk : k % 4 = k2 % 4)
    (p : ℤ × ℤ) : transformPoint w h k fh fv p = transformPoint w h k2 fh fv p := by
  unfold transformPoint rot_pt
  rw [hk]

lemma transformVec_congr_mod (k k2 : ℤ) (fh fv : Bool) (hk : k % 4 = k2 % 4)
    (d : ℚ × ℚ) : transformVec k fh fv d = transformVec k2 fh fv d := by
  unfold transformVec rot_vec
  rw [hk]

lemma transformPoint_inv (w h : ℕ) (k : ℤ) (fh fv : Bool) (p : ℤ × ℤ) :
    transformPoint (if k % 4 = 0 ∨ k % 4 = 2 then w else h)
      (if k % 4 = 0 ∨ k % 4 = 2 then h else w) (-k)
      (if k % 4 = 1 ∨ k % 4 = 3 then fv else fh)
      (if k % 4 = 1 ∨ k % 4 = 3 then fh else fv)
      (transformPoint w h k fh fv p) = p := by
  obtain ⟨x, y⟩ := p
  have h4 : k % 4 = 0 ∨ k % 4 = 1 ∨ k % 4 = 2 ∨ k % 4 = 3 := by omega
  rcases h4 with hr | hr | hr | hr
  · have hr2 : (-k) % 4 = 0 := by omega
    cases fh <;> cases fv <;>
      (simp only [transformPoint, rot_pt, flip_pt, hr, hr2]
       norm_num [Prod.ext_iff])
  · have hr2 : (-k) % 4 = 3 := by omega
    cases fh <;> cases fv <;>
      (simp only [transformPoint, rot_pt, flip_pt, hr, hr2]
       norm_num [Prod.ext_iff])
  · have hr2 : (-k) % 4 = 2 := by omega
    cases fh <;> cases fv <;>
      (simp only [transformPoint, rot_pt, flip_pt, hr, hr2]
       norm_num [Prod.ext_iff])
  · have hr2 : (-k) % 4 = 1 := by omega
    cases fh <;> cases fv <;>
      (simp only [transformPoint, rot_pt, flip_pt, hr, hr2]
       norm_num [Prod.ext_iff])

lemma transformVec_inv (k : ℤ) (fh fv : Bool) (d : ℚ × ℚ) :
    transformVec (-k) (if k % 4 = 1 ∨ k % 4 = 3 then fv else fh)
      (if k % 4 = 1 ∨ k % 4 = 3 then fh else fv) (transformVec k fh fv d) = d := by
  obtain ⟨dx, dy⟩ := d
  have h4 : k % 4 = 0 ∨ k % 4 = 1 ∨ k % 4 = 2 ∨ k % 4 = 3 := by omega
  rcases h4 with hr | hr | hr | hr
  · have hr2 : (-k) % 4 = 0 := by omega
    cases fh <;> cases fv <;>
      (simp only [transformVec, rot_vec, flip_vec, hr, hr2]
       norm_num [Prod.ext_iff])
  · have hr2 : (-k) % 4 = 3 := by omega
    cases fh <;> cases fv <;>
      (simp only [transformVec, rot_vec, flip_vec, hr, hr2]
       norm_num [Prod.ext_iff])
  · have hr2 : (-k) % 4 = 2 := by omega
    cases fh <;> cases fv <;>
      (simp only [transformVec, rot_vec, flip_vec, hr, hr2]
       norm_num [Prod.ext_iff])
  · have hr2 : (-k) % 4 = 1 := by omega
    cases fh <;> cases fv <;>
      (simp only [transformVec, rot_vec, flip_vec, hr, hr2]
       norm_num [Prod.ext_iff])

lemma transformPoint_range (w h : ℕ) (k : ℤ) (fh fv : Bool) (p : ℤ × ℤ)
    (hx : 0 ≤ p.1) (hx2 : p.1 < (w : ℤ)) (hy : 0 ≤ p.2) (hy2 : p.2 < (h : ℤ)) :
    0 ≤ (transformPoint w h k fh fv p).1 ∧
    (transformPoint w h k fh fv p).1 <
      ((if k % 4 = 0 ∨ k % 4 = 2 then w else h : ℕ) : ℤ) ∧
    0 ≤ (transformPoint w h k fh fv p).2 ∧
    (transformPoint w h k fh fv p).2 <
      ((if k % 4 = 0 ∨ k % 4 = 2 then h else w : ℕ) : ℤ) := by
  obtain ⟨x, y⟩ := p
  have h4 : k % 4 = 0 ∨ k % 4 = 1 ∨ k % 4 = 2 ∨ k % 4 = 3 := by omega
  rcases h4 with hr | hr | hr | hr <;>
    cases fh <;> cases fv <;>
      (simp only [transformPoint, rot_pt, flip_pt, hr]
       norm_num
       omega)

lemma transformPoint_inj (w h : ℕ) (k : ℤ) (fh fv : Bool) {p q : ℤ × ℤ}
    (hpq : transformPoint w h k fh fv p = transformPoint w h k fh fv q) : p = q := by
  have h1 := transformPoint_inv w h k fh fv p
  have h2 := transformPoint_inv w h k fh fv q
  rw [← h1, ← h2, hpq]

lemma mem_cellIndices {w : ℕ} {ys : List ℕ} {p : ℕ × ℕ} :
    p ∈ cellIndices w ys ↔ p.1 < w ∧ p.2 ∈ ys := by
  induction ys with
  | nil => simp [cellIndices]
  | cons y ys ih =>
    obtain ⟨a, b⟩ := p
    simp only [cellIndices, List.mem_append, List.mem_map, List.mem_range, ih,
      List.mem_cons, Prod.mk.injEq]
    constructor
    · rintro (⟨x, hx, rfl, rfl⟩ | ⟨h1, h2⟩)
      · exact ⟨hx, Or.inl rfl⟩
      · exact ⟨h1, Or.inr h2⟩
    · rintro ⟨h1, rfl | h2⟩
      · exact Or.inl ⟨a, h1, rfl, rfl⟩
      · exact Or.inr ⟨h1, h2⟩

lemma cellIndices_nodup {w : ℕ} {ys : List ℕ} (hys : ys.Nodup) :
    (cellIndices w ys).Nodup := by
  induction ys with
  | nil => exact List.nodup_nil
  | cons y ys ih =>
    rw [cellIndices, List.nodup_append]
    refine ⟨?_, ih (List.nodup_cons.1 hys).2, ?_⟩
    · exact (List.nodup_range w).map (fun a b hab => (Prod.mk.injEq _ _ _ _ ▸ hab).1)
    · intro p hp
      obtain ⟨x, _, hxp⟩ := List.mem_map.1 hp
      intro hp2
      have h2 := (mem_cellIndices.1 hp2).2
      rw [← hxp] at h2
      exact (List.nodup_cons.1 hys).1 h2

lemma foldl_rows_eq (src : List (List BlockType)) (f : ℕ → ℕ → ℤ × ℤ) (w : ℕ)
    (ys : List ℕ) (g0 : List (List BlockType)) :
    ys.foldl (fun g y => (List.range w).foldl
      (fun g x => setCell g (f x y).1.toNat (f x y).2.toNat (getCell src x y)) g) g0 =
    (cellIndices w ys).foldl (writeCell src f) g0 := by
  induction ys generalizing g0 with
  | nil => rfl
  | cons y ys ih =>
    simp only [List.foldl_cons, cellIndices, List.foldl_append]
    rw [← ih]
    congr 1
    rw [List.foldl_map]
    rfl

lemma fillGrid_eq_foldl (src : List (List BlockType)) (srcW srcH dstW dstH : ℕ)
    (f : ℕ → ℕ → ℤ × ℤ) :
    fillGrid src srcW srcH dstW dstH f =
      (cellIndices srcW (List.range srcH)).foldl (writeCell src f)
        (List.replicate dstH (List.replicate dstW BlockType.EMPTY)) := by
  unfold fillGrid
  exact foldl_rows_eq src f srcW (List.range srcH) _

lemma setCell_rect {g : List (List BlockType)} {W H x y : ℕ} {b : BlockType}
    (h1 : g.length = H) (h2 : ∀ r ∈ g, r.length = W) :
    (setCell g x y b).length = H ∧ ∀ r ∈ setCell g x y b, r.length = W := by
  by_cases hy : y < g.length
  · constructor
    · rw [setCell, List.length_set]
      exact h1
    · intro r hr
      rcases List.mem_or_eq_of_mem_set hr with h | h
      · exact h2 r h
      · subst h
        rw [List.length_set, List.getD_eq_getElem _ _ hy]
        exact h2 _ (List.getElem_mem hy)
  · rw [setCell, List.set_eq_of_length_le (le_of_not_lt hy)]
    exact ⟨h1, h2⟩

lemma foldl_writeCell_rect (src : List (List BlockType)) (f : ℕ → ℕ → ℤ × ℤ)
    (l : List (ℕ × ℕ)) {g : List (List BlockType)} {W H : ℕ}
    (h1 : g.length = H) (h2 : ∀ r ∈ g, r.length = W) :
    (l.foldl (writeCell src f) g).length = H ∧
    ∀ r ∈ l.foldl (writeCell src f) g, r.length = W := by
  induction l generalizing g with
  | nil => exact ⟨h1, h2⟩
  | cons p l ih =>
    rw [List.foldl_cons]
    obtain ⟨k1, k2⟩ := setCell_rect (g := g) (x := (f p.1 p.2).1.toNat)
      (y := (f p.1 p.2).2.toNat) (b := getCell src p.1 p.2) h1 h2
    exact ih k1 k2

lemma getCell_setCell_ne {g : List (List BlockType)} {x y X Y : ℕ} {b : BlockType}
    (h : x ≠ X ∨ y ≠ Y) : getCell (setCell g x y b) X Y = getCell g X Y := by
  by_cases hyY : y = Y
  · subst hyY
    have hx : x ≠ X := by tauto
    simp only [getCell, setCell, List.getD_eq_getElem?_getD]
    by_cases hy : y < g.length
    · rw [List.getElem?_set_self hy]
      simp only [Option.getD_some]
      rw [List.getElem?_set_ne hx]
    · rw [List.set_eq_of_length_le (le_of_not_lt hy)]
  · simp only [getCell, setCell, List.getD_eq_getElem?_getD]
    rw [List.getElem?_set_ne hyY]

lemma getCell_setCell_self {g : List (List BlockType)} {W H x y : ℕ} {b : BlockType}
    (h1 : g.length = H) (h2 : ∀ r ∈ g, r.length = W) (hx : x < W) (hy : y < H) :
    getCell (setCell g x y b) x y = b := by
  have hyg : y < g.length := by omega
  have hrow : (g[y]?.getD []).length = W := by
    rw [← List.getD_eq_getElem?_getD, List.getD_eq_getElem _ _ hyg]
    exact h2 _ (List.getElem_mem hyg)
  simp only [getCell, setCell, List.getD_eq_getElem?_getD]
  rw [List.getElem?_set_self hyg]
  simp only [Option.getD_some]
  rw [List.getElem?_set_self (by omega)]
  rfl

lemma getCell_foldl_not_mem (src : List (List BlockType)) (f : ℕ → ℕ → ℤ × ℤ)
    (l : List (ℕ × ℕ)) (g : List (List BlockType)) (X Y : ℕ)
    (h : ∀ p ∈ l, (f p.1 p.2).1.toNat ≠ X ∨ (f p.1 p.2).2.toNat ≠ Y) :
    getCell (l.foldl (writeCell src f) g) X Y = getCell g X Y := by
  induction l generalizing g with
  | nil => rfl
  | cons p l ih =>
    rw [List.foldl_cons]
    rw [ih _ fun q hq => h q (List.mem_cons_of_mem p hq)]
    exact getCell_setCell_ne (h p (List.mem_cons_self p l))

lemma fillGrid_rect (src : List (List BlockType)) (srcW srcH dstW dstH : ℕ)
    (f : ℕ → ℕ → ℤ × ℤ) :
    (fillGrid src srcW srcH dstW dstH f).length = dstH ∧
    ∀ r ∈ fillGrid src srcW srcH dstW dstH f, r.length = dstW := by
  rw [fillGrid_eq_foldl]
  exact foldl_writeCell_rect src f _ (by simp)
    (fun r hr => by simp [List.eq_of_mem_replicate hr])

lemma grid_ext {g1 g2 : List (List BlockType)} {W H : ℕ}
    (h1 : g1.length = H) (h2 : ∀ r ∈ g1, r.length = W)
    (h3 : g2.length = H) (h4 : ∀ r ∈ g2, r.length = W)
    (h5 : ∀ x y, x < W → y < H → getCell g1 x y = getCell g2 x y) : g1 = g2 := by
  apply List.ext_getElem (by omega)
  intro y hy1 hy2
  apply List.ext_getElem
  · rw [h2 _ (List.getElem_mem hy1), h4 _ (List.getElem_mem hy2)]
  · intro x hx1 hx2
    have hxW : x < W := by
      have := h2 _ (List.getElem_mem hy1)
      omega
    have hyH : y < H := by omega
    have key := h5 x y hxW hyH
    unfold getCell at key
    rw [List.getD_eq_getElem g1 [] (by omega), List.getD_eq_getElem g2 [] (by omega),
      List.getD_eq_getElem _ _ hx1, List.getD_eq_getElem _ _ hx2] at key
    exact key

lemma getCell_fillGrid (src : List (List BlockType)) (srcW srcH dstW dstH : ℕ)
    (f : ℕ → ℕ → ℤ × ℤ)
    (hrange : ∀ x y, x < srcW → y < srcH →
      0 ≤ (f x y).1 ∧ (f x y).1 < (dstW : ℤ) ∧ 0 ≤ (f x y).2 ∧ (f x y).2 < (dstH : ℤ))
    (hinj : ∀ x y x2 y2, x < srcW → y < srcH → x2 < srcW → y2 < srcH →
      f x y = f x2 y2 → x = x2 ∧ y = y2)
    (x y : ℕ) (hx : x < srcW) (hy : y < srcH) :
    getCell (fillGrid src srcW srcH dstW dstH f) (f x y).1.toNat (f x y).2.toNat =
      getCell src x y := by
  rw [fillGrid_eq_foldl]
  have hmem : (x, y) ∈ cellIndices srcW (List.range srcH) :=
    mem_cellIndices.2 ⟨hx, List.mem_range.2 hy⟩
  have hnd : (cellIndices srcW (List.range srcH)).Nodup :=
    cellIndices_nodup (List.nodup_range srcH)
  obtain ⟨l1, l2, hl⟩ := List.append_of_mem hmem
  rw [hl] at hnd ⊢
  rw [List.foldl_append, List.foldl_cons]
  have hnotin : (x, y) ∉ l2 := (List.nodup_cons.1 hnd.of_append_right).1
  rw [getCell_foldl_not_mem]
  · obtain ⟨hb1, hb2⟩ := foldl_writeCell_rect src f l1
      (g := List.replicate dstH (List.replicate dstW BlockType.EMPTY))
      (W := dstW) (H := dstH) (by simp)
      (fun r hr => by simp [List.eq_of_mem_replicate hr])
    obtain ⟨r1, r2, r3, r4⟩ := hrange x y hx hy
    rw [writeCell]
    try dsimp only
    exact getCell_setCell_self hb1 hb2 (by omega) (by omega)
  · intro p hp
    by_contra hcon
    push_neg at hcon
    obtain ⟨he1, he2⟩ := hcon
    have hpmem : p ∈ cellIndices srcW (List.range srcH) := by
      rw [hl]
      exact List.mem_append_right _ (List.mem_cons_of_mem _ hp)
    obtain ⟨hp1, hp2⟩ := mem_cellIndices.1 hpmem
    have hp2h : p.2 < srcH := List.mem_range.1 hp2
    obtain ⟨q1, q2, q3, q4⟩ := hrange p.1 p.2 hp1 hp2h
    obtain ⟨r1, r2, r3, r4⟩ := hrange x y hx hy
    have hfeq : f p.1 p.2 = f x y := Prod.ext_iff.2 ⟨by omega, by omega⟩
    obtain ⟨e1, e2⟩ := hinj p.1 p.2 x y hp1 hp2h hx hy hfeq
    exact hnotin ((Prod.ext_iff.2 ⟨e1, e2⟩ : p = (x, y)) ▸ hp)

lemma fillGrid_fillGrid_id (src : List (List BlockType)) (w h W H : ℕ)
    (f1 f2 : ℕ → ℕ → ℤ × ℤ)
    (hlen : src.length = h) (hrows : ∀ r ∈ src, r.length = w)
    (h1range : ∀ x y, x < w → y < h →
      0 ≤ (f1 x y).1 ∧ (f1 x y).1 < (W : ℤ) ∧ 0 ≤ (f1 x y).2 ∧ (f1 x y).2 < (H : ℤ))
    (h2range : ∀ x y, x < W → y < H →
      0 ≤ (f2 x y).1 ∧ (f2 x y).1 < (w : ℤ) ∧ 0 ≤ (f2 x y).2 ∧ (f2 x y).2 < (h : ℤ))
    (h2inj : ∀ x y x2 y2, x < W → y < H → x2 < W → y2 < H →
      f2 x y = f2 x2 y2 → x = x2 ∧ y = y2)
    (hcomp : ∀ x y, x < w → y < h →
      f2 (f1 x y).1.toNat (f1 x y).2.toNat = ((x : ℤ), (y : ℤ))) :
    fillGrid (fillGrid src w h W H f1) W H w h f2 = src := by
  obtain ⟨hb1, hb2⟩ := fillGrid_rect (fillGrid src w h W H f1) W H w h f2
  apply grid_ext hb1 hb2 hlen hrows
  intro X Y hX hY
  obtain ⟨r1, r2, r3, r4⟩ := h1range X Y hX hY
  have huW : (f1 X Y).1.toNat < W := by omega
  have hvH : (f1 X Y).2.toNat < H := by omega
  have hc := hcomp X Y hX hY
  have hfx : (f2 (f1 X Y).1.toNat (f1 X Y).2.toNat).1.toNat = X := by
    rw [hc]
    exact Int.toNat_natCast X
  have hfy : (f2 (f1 X Y).1.toNat (f1 X Y).2.toNat).2.toNat = Y := by
    rw [hc]
    exact Int.toNat_natCast Y
  have key := getCell_fillGrid (fillGrid src w h W H f1) W H w h f2 h2range h2inj
    (f1 X Y).1.toNat (f1 X Y).2.toNat huW hvH
  rw [hfx, hfy] at key
  rw [key]
  exact getCell_fillGrid src w h W H f1 h1range
    (fun a b a2 b2 ha hb ha2 hb2 hab => by
      have h1 := h1range a b ha hb
      have h2 := h1range a2 b2 ha2 hb2
      have := hcomp a b ha hb
      have := hcomp a2 b2 ha2 hb2
      have hcast : ((a : ℤ), (b : ℤ)) = ((a2 : ℤ), (b2 : ℤ)) := by
        rw [← hcomp a b ha hb, ← hcomp a2 b2 ha2 hb2, hab]
      rw [Prod.ext_iff] at hcast
      obtain ⟨hc1, hc2⟩ := hcast
      dsimp only at hc1 hc2
      exact ⟨by exact_mod_cast hc1, by exact_mod_cast hc2⟩)
    X Y hX hY

lemma pyRound_intCast (n : ℤ) : pyRound ((n : ℚ)) = n := by
  unfold pyRound
  rw [Int.floor_intCast]
  norm_num

lemma transformPoint_inv_even (w h : ℕ) (k : ℤ) (fh fv : Bool)
    (hk : k % 4 = 0 ∨ k % 4 = 2) (p : ℤ × ℤ) :
    transformPoint w h (-k) fh fv (transformPoint w h k fh fv p) = p := by
  have key := transformPoint_inv w h k fh fv p
  have hodd : ¬(k % 4 = 1 ∨ k % 4 = 3) := by omega
  rw [if_pos hk, if_pos hk, if_neg hodd, if_neg hodd] at key
  exact key

lemma transformPoint_inv_odd (w h : ℕ) (k : ℤ) (fh fv : Bool)
    (hk : k % 4 = 1 ∨ k % 4 = 3) (p : ℤ × ℤ) :
    transformPoint h w (-k) fv fh (transformPoint w h k fh fv p) = p := by
  have key := transformPoint_inv w h k fh fv p
  have heven : ¬(k % 4 = 0 ∨ k % 4 = 2) := by omega
  rw [if_neg heven, if_neg heven, if_pos hk, if_pos hk] at key
  exact key

lemma transformVec_inv_even (k : ℤ) (fh fv : Bool)
    (hk : k % 4 = 0 ∨ k % 4 = 2) (d : ℚ × ℚ) :
    transformVec (-k) fh fv (transformVec k fh fv d) = d := by
  have key := transformVec_inv k fh fv d
  have hodd : ¬(k % 4 = 1 ∨ k % 4 = 3) := by omega
  rw [if_neg hodd, if_neg hodd] at key
  exact key

lemma transformVec_inv_odd (k : ℤ) (fh fv : Bool)
    (hk : k % 4 = 1 ∨ k % 4 = 3) (d : ℚ × ℚ) :
    transformVec (-k) fv fh (transformVec k fh fv d) = d := by
  have key := transformVec_inv k fh fv d
  rw [if_pos hk, if_pos hk] at key
  exact key

lemma transformPoint_nat_inj (w h : ℕ) (k : ℤ) (fh fv : Bool) :
    ∀ x y x2 y2 : ℕ, x < w → y < h → x2 < w → y2 < h →
      transformPoint w h k fh fv ((x : ℤ), (y : ℤ)) =
        transformPoint w h k fh fv ((x2 : ℤ), (y2 : ℤ)) → x = x2 ∧ y = y2 := by
  intro x y x2 y2 _ _ _ _ hab
  have key := transformPoint_inj w h k fh fv hab
  rw [Prod.ext_iff] at key
  obtain ⟨k1, k2⟩ := key
  dsimp only at k1 k2
  exact ⟨by exact_mod_cast k1, by exact_mod_cast k2⟩

lemma transformPoint_nat_range (w h : ℕ) (k : ℤ) (fh fv : Bool) :
    ∀ x y : ℕ, x < w → y < h →
      0 ≤ (transformPoint w h k fh fv ((x : ℤ), (y : ℤ))).1 ∧
      (transformPoint w h k fh fv ((x : ℤ), (y : ℤ))).1 <
        ((if k % 4 = 0 ∨ k % 4 = 2 then w else h : ℕ) : ℤ) ∧
      0 ≤ (transformPoint w h k fh fv ((x : ℤ), (y : ℤ))).2 ∧
      (transformPoint w h k fh fv ((x : ℤ), (y : ℤ))).2 <
        ((if k % 4 = 0 ∨ k % 4 = 2 then h else w : ℕ) : ℤ) := by
  intro x y hx hy
  refine transformPoint_range w h k fh fv ((x : ℤ), (y : ℤ)) ?_ ?_ ?_ ?_ <;>
    dsimp only <;> omega

lemma transform_roundTrip_grid_even (src : List (List BlockType)) (w h : ℕ) (k : ℤ)
    (fh fv : Bool) (hk : k % 4 = 0 ∨ k % 4 = 2)
    (hlen : src.length = h) (hrows : ∀ r ∈ src, r.length = w) :
    fillGrid
      (fillGrid src w h w h (fun x y => transformPoint w h k fh fv ((x : ℤ), (y : ℤ))))
      w h w h (fun x y => transformPoint w h (-k) fh fv ((x : ℤ), (y : ℤ))) = src := by
  have hk2 : (-k) % 4 = 0 ∨ (-k) % 4 = 2 := by omega
  apply fillGrid_fillGrid_id src w h w h _ _ hlen hrows
  · intro x y hx hy
    have key := transformPoint_nat_range w h k fh fv x y hx hy
    rw [if_pos hk, if_pos hk] at key
    exact key
  · intro x y hx hy
    have key := transformPoint_nat_range w h (-k) fh fv x y hx hy
    rw [if_pos hk2, if_pos hk2] at key
    exact key
  · exact transformPoint_nat_inj w h (-k) fh fv
  · intro x y hx hy
    have key := transformPoint_nat_range w h k fh fv x y hx hy
    rw [if_pos hk, if_pos hk] at key
    obtain ⟨r1, r2, r3, r4⟩ := key
    have e1 : (((transformPoint w h k fh fv ((x : ℤ), (y : ℤ))).1.toNat : ℤ)) =
        (transformPoint w h k fh fv ((x : ℤ), (y : ℤ))).1 := Int.toNat_of_nonneg r1
    have e2 : (((transformPoint w h k fh fv ((x : ℤ), (y : ℤ))).2.toNat : ℤ)) =
        (transformPoint w h k fh fv ((x : ℤ), (y : ℤ))).2 := Int.toNat_of_nonneg r3
    have epair : ((((transformPoint w h k fh fv ((x : ℤ), (y : ℤ))).1.toNat : ℤ)),
        (((transformPoint w h k fh fv ((x : ℤ), (y : ℤ))).2.toNat : ℤ))) =
        transformPoint w h k fh fv ((x : ℤ), (y : ℤ)) := Prod.ext_iff.2 ⟨e1, e2⟩
    rw [epair]
    exact transformPoint_inv_even w h k fh fv hk ((x : ℤ), (y : ℤ))

lemma transform_roundTrip_grid_odd (src : List (List BlockType)) (w h : ℕ) (k : ℤ)
    (fh fv : Bool) (hk : k % 4 = 1 ∨ k % 4 = 3)
    (hlen : src.length = h) (hrows : ∀ r ∈ src, r.length = w) :
    fillGrid
      (fillGrid src w h h w (fun x y => transformPoint w h k fh fv ((x : ℤ), (y : ℤ))))
      h w w h (fun x y => transformPoint h w (-k) fv fh ((x : ℤ), (y : ℤ))) = src := by
  have hk2 : (-k) % 4 = 1 ∨ (-k) % 4 = 3 := by omega
  have hkne : ¬(k % 4 = 0 ∨ k % 4 = 2) := by omega
  have hk2ne : ¬((-k) % 4 = 0 ∨ (-k) % 4 = 2) := by omega
  apply fillGrid_fillGrid_id src w h h w _ _ hlen hrows
  · intro x y hx hy
    have key := transformPoint_nat_range w h k fh fv x y hx hy
    rw [if_neg hkne, if_neg hkne] at key
    exact key
  · intro x y hx hy
    have key := transformPoint_nat_range h w (-k) fv fh x y hx hy
    rw [if_neg hk2ne, if_neg hk2ne] at key
    exact key
  · exact transformPoint_nat_inj h w (-k) fv fh
  · intro x y hx hy
    have key := transformPoint_nat_range w h k fh fv x y hx hy
    rw [if_neg hkne, if_neg hkne] at key
    obtain ⟨r1, r2, r3, r4⟩ := key
    have e1 : (((transformPoint w h k fh fv ((x : ℤ), (y : ℤ))).1.toNat : ℤ)) =
        (transformPoint w h k fh fv ((x : ℤ), (y : ℤ))).1 := Int.toNat_of_nonneg r1
    have e2 : (((transformPoint w h k fh fv ((x : ℤ), (y : ℤ))).2.toNat : ℤ)) =
        (transformPoint w h k fh fv ((x : ℤ), (y : ℤ))).2 := Int.toNat_of_nonneg r3
    have epair : ((((transformPoint w h k fh fv ((x : ℤ), (y : ℤ))).1.toNat : ℤ)),
        (((transformPoint w h k fh fv ((x : ℤ), (y : ℤ))).2.toNat : ℤ))) =
        transformPoint w h k fh fv ((x : ℤ), (y : ℤ)) := Prod.ext_iff.2 ⟨e1, e2⟩
    rw [epair]
    exact transformPoint_inv_odd w h k fh fv hk ((x : ℤ), (y : ℤ))

/-- C6 corrected: for every rectangular state, applying `transform` with
rotation `k` and then `transform` with rotation `-k` — keeping the flip
flags for even `k` but SWAPPING them for odd `k` — restores the state
exactly, except that each projectile position is replaced by its rounding
(the first transform rounds projectile positions to integers).  Grid
dimensions, grid layout, agent position, towers, projectile directions
and all remaining fields are restored; the spec's claim that the same
flips invert the transform fails for odd `k` (see the counterexample). -/
theorem c6_double_transform_inverse (s : RoundState) (k : ℤ) (fh fv : Bool)
    (hlen : s.grid_layout.length = s.grid_height)
    (hrows : ∀ r ∈ s.grid_layout, r.length = s.grid_width) :
    doubleTransform s k fh fv =
      { s with projectiles := s.projectiles.map fun pr =>
          { pr with position :=
              ((pyRound pr.position.1 : ℚ), (pyRound pr.position.2 : ℚ)) } } := by
  obtain ⟨gw, gh, gl, tw, pj, cad, lid, pos, hp, ti⟩ := s
  dsimp only at hlen hrows ⊢
  by_cases hk : k % 4 = 0 ∨ k % 4 = 2
  case pos =>
    have hodd : ¬(k % 4 = 1 ∨ k % 4 = 3) := by omega
    have hk2 : -k % 4 = 0 ∨ -k % 4 = 2 := by omega
    have cp1 : ∀ p, transformPoint gw gh (k % 4) fh fv p =
        transformPoint gw gh k fh fv p :=
      fun p => transformPoint_congr_mod gw gh (k % 4) k fh fv (by omega) p
    have cp2 : ∀ p, transformPoint gw gh (-k % 4) fh fv p =
        transformPoint gw gh (-k) fh fv p :=
      fun p => transformPoint_congr_mod gw gh (-k % 4) (-k) fh fv (by omega) p
    have cv1 : ∀ d, transformVec (k % 4) fh fv d = transformVec k fh fv d :=
      fun d => transformVec_congr_mod (k % 4) k fh fv (by omega) d
    have cv2 : ∀ d, transformVec (-k % 4) fh fv d = transformVec (-k) fh fv d :=
      fun d => transformVec_congr_mod (-k % 4) (-k) fh fv (by omega) d
    have tinv : ∀ p, transformPoint gw gh (-k) fh fv (transformPoint gw gh k fh fv p) = p :=
      transformPoint_inv_even gw gh k fh fv hk
    have vinv : ∀ d, transformVec (-k) fh fv (transformVec k fh fv d) = d :=
      transformVec_inv_even k fh fv hk
    simp only [doubleTransform, RoundState.transform, if_pos hk, if_neg hodd, if_pos hk2,
      cp1, cp2, cv1, cv2, List.map_map, Function.comp_def, Prod.mk.eta, pyRound_intCast,
      tinv, vinv, RoundState.mk.injEq]
    refine ⟨?_, ?_, ?_, ?_, ?_, ?_, ?_, ?_, ?_, ?_⟩ <;>
      first
        | trivial
        | exact transform_roundTrip_grid_even gl gw gh k fh fv hk hlen hrows
        | exact List.map_id'' (fun t => rfl) tw
  case neg =>
    have hko : k % 4 = 1 ∨ k % 4 = 3 := by omega
    have hk2 : ¬(-k % 4 = 0 ∨ -k % 4 = 2) := by omega
    have cp1 : ∀ p, transformPoint gw gh (k % 4) fh fv p =
        transformPoint gw gh k fh fv p :=
      fun p => transformPoint_congr_mod gw gh (k % 4) k fh fv (by omega) p
    have cp2 : ∀ p, transformPoint gh gw (-k % 4) fv fh p =
        transformPoint gh gw (-k) fv fh p :=
      fun p => transformPoint_congr_mod gh gw (-k % 4) (-k) fv fh (by omega) p
    have cv1 : ∀ d, transformVec (k % 4) fh fv d = transformVec k fh fv d :=
      fun d => transformVec_congr_mod (k % 4) k fh fv (by omega) d
    have cv2 : ∀ d, transformVec (-k % 4) fv fh d = transformVec (-k) fv fh d :=
      fun d => transformVec_congr_mod (-k % 4) (-k) fv fh (by omega) d
    have tinv : ∀ p, transformPoint gh gw (-k) fv fh (transformPoint gw gh k fh fv p) = p :=
      transformPoint_inv_odd gw gh k fh fv hko
    have vinv : ∀ d, transformVec (-k) fv fh (transformVec k fh fv d) = d :=
      transformVec_inv_odd k fh fv hko
    simp only [doubleTransform, RoundState.transform, if_neg hk, if_pos hko, if_neg hk2,
      cp1, cp2, cv1, cv2, List.map_map, Function.comp_def, Prod.mk.eta, pyRound_intCast,
      tinv, vinv, RoundState.mk.injEq]
    refine ⟨?_, ?_, ?_, ?_, ?_, ?_, ?_, ?_, ?_, ?_⟩ <;>
      first
        | trivial
        | exact transform_roundTrip_grid_odd gl gw gh k fh fv hko hlen hrows
        | exact List.map_id'' (fun t => rfl) tw

/-- C6 witness: the corrected round-trip instantiated at the concrete
non-square `transformState` with `k = 1`, `flip_h = true`,
`flip_v = false`: the rectangularity hypotheses hold and the double
transform with swapped flips restores the state up to rounding of
projectile positions. -/
theorem c6_double_transform_inverse_witness :
    transformState.grid_layout.length = transformState.grid_height ∧
    (∀ r ∈ transformState.grid_layout, r.length = transformState.grid_width) ∧
    doubleTransform transformState 1 true false =
      { transformState with projectiles := transformState.projectiles.map fun pr =>
          { pr with position :=
              ((pyRound pr.position.1 : ℚ), (pyRound pr.position.2 : ℚ)) } } :=
  ⟨by decide, by decide, c6_double_transform_inverse transformState 1 true false
    (by decide) (by decide)⟩

end GMS
